import Mathlib

/-!
Verification of the CiteFix citation reconciliation core.

This file gives a shallow embedding, in Lean 4, of the parts of the CiteFix
source relevant to the claims under check:

* `app/services/citation_detector.py` — text normalisation, Levenshtein
  distance, fuzzy author matching, in-text citation detection, numeric
  reference parsing, reference DOI extraction, and the citation/reference
  matcher;
* `app/services/duplicate_detector.py` — duplicate reference detection and
  merging;
* `app/services/validator.py` — the validation report builder.

Python strings are modelled as `List Char`; Python `int` as `Int` (or `Nat`
for values that are non-negative by construction); `None`-able values as
`Option`; Python dicts as insertion-ordered association lists.  Python
truthiness of optional values (`if x:` where `x` is `None`, `0`, `""`, `[]`)
is modelled explicitly wherever the source relies on it.

The regular expressions of the source are embedded via a small backtracking
regular-expression engine (`RE`, `reRun`) whose result list enumerates
alternatives in Python's leftmost/greedy backtracking priority order; each
source pattern is transcribed as an `RE` value next to a comment quoting the
original pattern text.

External collaborators (the `rapidfuzz` similarity score, the CrossRef
network lookups of the suggestion engine, and the separate
completeness/journal/retraction checker modules) are passed to the embedded
functions as parameters: they contribute opaque issue entries or scores but
take no part in the matching and counting logic under verification.
-/

namespace CiteFix

/-! ## Python string primitives -/

/-- Whitespace characters recognised by Python `str.strip`, `str.split()` and
the regex class `\s` (ASCII part; the source only strips/splits ASCII
whitespace in the inputs under consideration). -/
def pyWs : List Char := [' ', Char.ofNat 9, Char.ofNat 10, Char.ofNat 13, Char.ofNat 11, Char.ofNat 12]

/-- Predicate form of `pyWs`. -/
def isPyWs (c : Char) : Bool := pyWs.contains c

/-- ASCII apostrophe, written via its code point. -/
def aposC : Char := Char.ofNat 39

/-- Python `str.lstrip()` on a character list. -/
def pyLstrip : List Char → List Char
  | [] => []
  | c :: rest => if isPyWs c then pyLstrip rest else c :: rest

/-- Python `str.rstrip()` (no arguments: strips whitespace). -/
def pyRstrip (s : List Char) : List Char := ((pyLstrip s.reverse)).reverse

/-- Python `str.strip()`. -/
def pyStrip (s : List Char) : List Char := pyRstrip (pyLstrip s)

/-- Python `str.rstrip(chars)` for an explicit strip set. -/
def pyRstripSet (set : List Char) : List Char → List Char :=
  fun s => (go s.reverse).reverse
where
  go : List Char → List Char
    | [] => []
    | c :: rest => if set.contains c then go rest else c :: rest

/-- Python `str.lower()` (ASCII case folding; all names compared by the
source are ASCII). -/
def pyLower (s : List Char) : List Char := s.map Char.toLower

/-- Python `c1 == c2` after `str.lower()` on both, for single characters. -/
def eqCI (a b : Char) : Bool := a.toLower = b.toLower

/-- Python `needle in hay` for strings: contiguous substring test. -/
def pyInSub (needle hay : List Char) : Bool :=
  if needle.isPrefixOf hay then true
  else match hay with
    | [] => needle.isEmpty
    | _ :: rest => pyInSub needle rest

/-- Python `str.split(sep)` for a single-character separator: splits at every
occurrence, keeping empty pieces. -/
def pySplitOn (sep : Char) : List Char → List (List Char)
  | [] => [[]]
  | c :: rest =>
    if c = sep then [] :: pySplitOn sep rest
    else match pySplitOn sep rest with
      | t :: ts => (c :: t) :: ts
      | [] => [[c]]

/-- Python `str.split()` (no argument): split on whitespace runs, dropping
empty pieces. -/
def pySplitWs : List Char → List (List Char)
  | [] => []
  | c :: rest =>
    if isPyWs c then pySplitWs rest
    else match pySplitWs rest with
      | [] => [[c]]
      | t :: ts =>
        match rest with
        | [] => [[c]]
        | r :: _ => if isPyWs r then [c] :: t :: ts else (c :: t) :: ts

/-- Python `sep.join(parts)` on character lists. -/
def pyJoin (sep : List Char) (parts : List (List Char)) : List Char :=
  List.intercalate sep parts

/-- Worker for `pyReplaceSub`, specialised to a non-empty pattern.  The
fuel argument makes the recursion structural; every step consumes at least
one character, so fuel equal to the input length is exact (the fuel-exhausted
arm is unreachable). -/
def pyReplaceSubGo (o : Char) (os : List Char) (new : List Char) : Nat → List Char → List Char
  | _, [] => []
  | 0, s => s
  | fuel + 1, c :: rest =>
    if (o :: os).isPrefixOf (c :: rest) then
      new ++ pyReplaceSubGo o os new fuel ((c :: rest).drop (o :: os).length)
    else c :: pyReplaceSubGo o os new fuel rest

/-- Python `str.replace(old, new)` for a multi-character pattern: replaces
every non-overlapping occurrence, scanning left to right.  The source never
calls `replace` with an empty pattern. -/
def pyReplaceSub (old new : List Char) (s : List Char) : List Char :=
  match old with
  | [] => s
  | o :: os => pyReplaceSubGo o os new s.length s

/-- Python `str.title()` (ASCII approximation): the first alphabetic
character of every alphabetic run is upper-cased, the rest lower-cased. -/
def pyTitle (s : List Char) : List Char := go false s
where
  go : Bool → List Char → List Char
    | _, [] => []
    | prevAlpha, c :: rest =>
      if c.isAlpha then
        (if prevAlpha then c.toLower else c.toUpper) :: go true rest
      else c :: go false rest

/-- Value of a digit character list read in base 10 (used to model Python
`int(s)` on all-digit input). -/
def digitsVal (s : List Char) : Nat := s.foldl (fun a c => a * 10 + (c.toNat - 48)) 0

/-- Python `int(s)`: strips whitespace, then accepts a non-empty all-digit
string (the source only ever applies `int` to such strings; signs and
underscores never occur in the matched input). -/
def pyInt (s : List Char) : Option Nat :=
  let t := pyStrip s
  if t ≠ [] ∧ t.all Char.isDigit then some (digitsVal t) else none

/-- Python truthiness of an optional string (`None` and `""` are falsy). -/
def truthyStr : Option (List Char) → Bool
  | none => false
  | some s => !s.isEmpty

/-- Python truthiness of an optional string, `String` version. -/
def truthyStrS : Option String → Bool
  | none => false
  | some s => !s.isEmpty

/-- Python truthiness of an optional integer (`None` and `0` are falsy). -/
def truthyInt : Option Int → Bool
  | none => false
  | some n => n ≠ 0

/-! ## Text normaliser (`_normalize_dashes`, `_normalize_apostrophes`,
`_normalize_for_matching` of `citation_detector.py`) -/

/-- Dash variants normalised by the source: `'‐‑‒–—'`. -/
def dashChars : List Char :=
  [Char.ofNat 0x2010, Char.ofNat 0x2011, Char.ofNat 0x2012, Char.ofNat 0x2013, Char.ofNat 0x2014]

/-- Apostrophe variants normalised by the source: `'’ʼ'`. -/
def aposChars : List Char := [Char.ofNat 0x2019, Char.ofNat 0x02BC]

/-- Python `text.replace(old, new)` for single characters (equivalent to a
character map). -/
def pyReplaceChar (old new : Char) (s : List Char) : List Char :=
  s.map fun c => if c = old then new else c

/-- Source `_normalize_dashes`: `for dash in dash_chars: text = text.replace(dash, '-')`. -/
def normalize_dashes (s : List Char) : List Char :=
  dashChars.foldl (fun t d => pyReplaceChar d '-' t) s

/-- Source `_normalize_apostrophes`: replaces each apostrophe variant with `'`. -/
def normalize_apostrophes (s : List Char) : List Char :=
  aposChars.foldl (fun t a => pyReplaceChar a aposC t) s

/-- Source `_normalize_for_matching`: apostrophe normalisation after dash
normalisation. -/
def normalize_for_matching (s : List Char) : List Char :=
  normalize_apostrophes (normalize_dashes s)

/-- Pointwise character action of `normalize_for_matching` (used to state its
specification). -/
def normChar (c : Char) : Char :=
  if c ∈ dashChars then '-' else if c ∈ aposChars then aposC else c

/-! ## Levenshtein distance (`_levenshtein_distance`) -/

/-- Inner loop of the source dynamic program: given the previous row, the
current row's last entry and the remaining characters of `s2`, produce the
rest of the current row. -/
def levInner (c1 : Char) : List Nat → Nat → List Char → List Nat
  | p0 :: p1 :: ps, curLast, c2 :: rest =>
    let ins := p1 + 1
    let del := curLast + 1
    let sub := p0 + (if c1 = c2 then 0 else 1)
    let v := min ins (min del sub)
    v :: levInner c1 (p1 :: ps) v rest
  | _, _, _ => []

/-- Outer loop of the source dynamic program over the characters of `s1`. -/
def levRows (s2 : List Char) : List Nat → Nat → List Char → List Nat
  | prev, _, [] => prev
  | prev, i, c1 :: rest =>
    let cur := (i + 1) :: levInner c1 prev (i + 1) s2
    levRows s2 cur (i + 1) rest

/-- Core of `_levenshtein_distance` on an ordered pair (first argument not
shorter). -/
def levBase (s1 s2 : List Char) : Nat :=
  if s2.length = 0 then s1.length
  else (levRows s2 (List.range (s2.length + 1)) 0 s1).getLastD 0

/-- Source `_levenshtein_distance`: row-based Levenshtein dynamic program,
swapping arguments (once) so the first is the longer. -/
def levenshtein_distance (s1 s2 : List Char) : Nat :=
  if s1.length < s2.length then levBase s2 s1 else levBase s1 s2

/-! ## Regular-expression engine

The source compiles its patterns with Python `re`.  We embed the patterns
needed by the claims through a small backtracking engine over `List Char`.
`reRun` enumerates the possible (suffix, captures) outcomes of matching a
pattern at the head of the input, ordered by Python's backtracking priority
(alternation left first, `*`/`?` greedy), so that the head of the list is
the match Python's engine returns.  A fuel argument bounds the recursion;
fuel is consumed only when a `star` body has consumed at least one
character, so `length + 1` fuel is always sufficient and the semantics at
that fuel are fuel-independent. -/

/-- Regular expression syntax: characters are matched by predicates (one
per character class of the source pattern). -/
inductive RE where
  | eps
  | cls (p : Char → Bool)
  | seq (a b : RE)
  | alt (a b : RE)
  | star (a : RE)
  | opt (a : RE)
  | group (n : Nat) (a : RE)

/-- Captures: group number paired with the consumed characters (most recent
first, as Python keeps the last match of a group). -/
abbrev Caps := List (Nat × List Char)

/-- Size of a pattern, used to compute a sufficient fuel bound. -/
def RE.sz : RE → Nat
  | .eps => 1
  | .cls _ => 1
  | .seq a b => a.sz + b.sz + 1
  | .alt a b => a.sz + b.sz + 1
  | .star a => a.sz + 1
  | .opt a => a.sz + 1
  | .group _ a => a.sz + 1

/-- Backtracking matcher: all ways `re` can match a prefix of `s`, each as
the remaining suffix plus captures, in Python priority order.  The fuel
bounds the recursion depth: along any path the pattern shrinks except at a
`star` continuation, which strictly consumes input (the `filter` below), so
a depth of `(|s| + 1) * (sz + 1)` can never be reached with the fuel
supplied by `reMatchHead` and the fuel-exhausted arm is unreachable there. -/
def reRun : Nat → RE → List Char → Caps → List (List Char × Caps)
  | 0, _, _, _ => []
  | fuel + 1, re, s, caps =>
    match re with
    | .eps => [(s, caps)]
    | .cls p =>
      match s with
      | [] => []
      | c :: rest => if p c then [(rest, caps)] else []
    | .seq a b => (reRun fuel a s caps).flatMap fun r => reRun fuel b r.1 r.2
    | .alt a b => reRun fuel a s caps ++ reRun fuel b s caps
    | .opt a => reRun fuel a s caps ++ [(s, caps)]
    | .star a =>
      let firsts := (reRun fuel a s caps).filter fun r => r.1.length < s.length
      (firsts.flatMap fun r => reRun fuel (.star a) r.1 r.2) ++ [(s, caps)]
    | .group n a =>
      (reRun fuel a s caps).map fun r => (r.1, (n, s.take (s.length - r.1.length)) :: r.2)

/-- Sufficient fuel for `reRun` on `re` and `s`. -/
def reFuel (re : RE) (s : List Char) : Nat := (s.length + 1) * (re.sz + 1) + 1

/-- Match `re` at the head of `s` (Python `re.match` at one position):
first outcome in priority order, as (number of consumed characters,
captures). -/
def reMatchHead (re : RE) (s : List Char) : Option (Nat × Caps) :=
  match reRun (reFuel re s) re s [] with
  | [] => none
  | r :: _ => some (s.length - r.1.length, r.2)

/-- One match produced by `reFinditer`: span, matched text (group 0) and
captures. -/
structure REMatch where
  start : Nat
  stop : Nat
  matched : List Char
  caps : Caps
deriving DecidableEq, Repr

/-- Group accessor (Python `m.group(n)`); all groups used by the source
participate in every successful match. -/
def REMatch.group (m : REMatch) (n : Nat) : List Char :=
  ((m.caps.find? fun p => p.1 = n).map fun p => p.2).getD []

/-- Worker for `reFinditer`: scan the suffix `s` whose first character sits
at absolute position `i`.  Each step consumes at least one character, so
fuel equal to the input length plus one is sufficient and the fuel-exhausted
arm is unreachable. -/
def reFinditerAux (re : RE) : Nat → List Char → Nat → List REMatch
  | 0, _, _ => []
  | _ + 1, [], i =>
    match reMatchHead re [] with
    | some (_, caps) => [⟨i, i, [], caps⟩]
    | none => []
  | fuel + 1, c :: rest, i =>
    match reMatchHead re (c :: rest) with
    | some (n, caps) =>
      if n = 0 then ⟨i, i, [], caps⟩ :: reFinditerAux re fuel rest (i + 1)
      else
        ⟨i, i + n, (c :: rest).take n, caps⟩ ::
          reFinditerAux re fuel ((c :: rest).drop n) (i + n)
    | none => reFinditerAux re fuel rest (i + 1)

/-- Python `re.finditer(pattern, text)`: non-overlapping matches, scanning
left to right. -/
def reFinditer (re : RE) (s : List Char) : List REMatch :=
  reFinditerAux re (s.length + 1) s 0

/-- Python `re.search(pattern, text) is not None`. -/
def reSearchB (re : RE) (s : List Char) : Bool := !(reFinditer re s).isEmpty

/-- Worker for `reSubDel` (fuel structural, exact at input length). -/
def reSubDelGo (re : RE) : Nat → List Char → List Char
  | _, [] => []
  | 0, s => s
  | fuel + 1, c :: rest =>
    match reMatchHead re (c :: rest) with
    | some (n, _) =>
      if n = 0 then c :: reSubDelGo re fuel rest
      else reSubDelGo re fuel ((c :: rest).drop n)
    | none => c :: reSubDelGo re fuel rest

/-- Python `re.sub(pattern, '', text)`: delete every match. -/
def reSubDel (re : RE) (s : List Char) : List Char := reSubDelGo re s.length s

/-- Python `re.split(pattern, text)`: cut the input at every match. -/
def reSplit (re : RE) (s : List Char) : List (List Char) :=
  go ((reFinditer re s).map fun m => (m.start, m.stop)) 0
where
  go : List (Nat × Nat) → Nat → List (List Char)
    | [], pos => [(s.drop pos)]
    | (a, b) :: rest, pos => ((s.drop pos).take (a - pos)) :: go rest b

/-! ### Combinators mirroring the source pattern texts -/

/-- Literal character. -/
def RE.chr (c : Char) : RE := .cls fun x => x = c

/-- Case-insensitive literal character (for patterns compiled with
`re.IGNORECASE`). -/
def RE.chrCI (c : Char) : RE := .cls fun x => eqCI x c

/-- Literal string. -/
def RE.str (s : String) : RE := s.data.foldr (fun c r => .seq (RE.chr c) r) .eps

/-- Case-insensitive literal string. -/
def RE.strCI (s : String) : RE := s.data.foldr (fun c r => .seq (RE.chrCI c) r) .eps

/-- One-or-more repetition (`+`). -/
def RE.plus1 (a : RE) : RE := .seq a (.star a)

/-- Parenthesis-free sequencing of a list of pieces. -/
def RE.cat (l : List RE) : RE := l.foldr .seq .eps

/-- Character class `\s`. -/
def reWsC : RE := .cls isPyWs

/-- Character class `\d` (ASCII digits; the matched documents use ASCII
digits). -/
def reDigitC : RE := .cls Char.isDigit

/-- Character class `[a-z]`. -/
def reLowerC : RE := .cls fun c => 'a' ≤ c ∧ c ≤ 'z'

/-- Character class `[A-Z]`. -/
def reUpperC : RE := .cls fun c => 'A' ≤ c ∧ c ≤ 'Z'

/-! ### Source patterns (`citation_detector.py` lines 38–115)

Transcriptions of the compiled patterns; each comment quotes the source
regex. -/

/-- Tail class of `AUTHOR_NAME`: `[a-zA-Z'’ʼ\-‐‑‒–—]`. -/
def nameTailC : RE := .cls fun c =>
  ('a' ≤ c && c ≤ 'z') || ('A' ≤ c && c ≤ 'Z') || c = aposC || aposChars.contains c
    || c = '-' || dashChars.contains c

/-- `AUTHOR_NAME = [A-Z][a-zA-Z'’ʼ\-‐‑‒–—]+`. -/
def reAuthorName : RE := .seq reUpperC (RE.plus1 nameTailC)

/-- `(?:&|and)`. -/
def reAmpAnd : RE := .alt (RE.chr '&') (RE.str "and")

/-- `(?:\s+(?:&|and)\s+AUTHOR_NAME)?` — the optional second author. -/
def reSecondAuthor : RE :=
  .opt (RE.cat [RE.plus1 reWsC, reAmpAnd, RE.plus1 reWsC, reAuthorName])

/-- `(?:\s+et\s+al\.?)?`. -/
def reEtAl : RE :=
  .opt (RE.cat [RE.plus1 reWsC, RE.str "et", RE.plus1 reWsC, RE.str "al", .opt (RE.chr '.')])

/-- `\d{4}[a-z]?`. -/
def reYear4 : RE := RE.cat [reDigitC, reDigitC, reDigitC, reDigitC, .opt reLowerC]

/-- `SINGLE_AUTHOR_YEAR = AUTHOR_NAME(?:\s+(?:&|and)\s+AUTHOR_NAME)?(?:\s+et\s+al\.?)?,?\s*\d{4}[a-z]?`. -/
def reSingleAuthorYear : RE :=
  RE.cat [reAuthorName, reSecondAuthor, reEtAl, .opt (RE.chr ','), .star reWsC, reYear4]

/-- `AUTHOR_YEAR_PATTERN = \((SINGLE(?:\s*;\s*SINGLE)*)\)`. -/
def reAuthorYearPat : RE :=
  RE.cat [RE.chr '(',
    .group 1 (.seq reSingleAuthorYear
      (.star (RE.cat [.star reWsC, RE.chr ';', .star reWsC, reSingleAuthorYear]))),
    RE.chr ')']

/-- `PARENTHETICAL_PATTERN = \(([^()]+)\)`. -/
def reParentheticalPat : RE :=
  RE.cat [RE.chr '(', .group 1 (RE.plus1 (.cls fun c => c ≠ '(' ∧ c ≠ ')')), RE.chr ')']

/-- `INDIVIDUAL_CITATION_PATTERN = (AUTHOR_NAME(?:\s+(?:&|and)\s+AUTHOR_NAME)?(?:\s+et\s+al\.?)?),?\s*(\d{4}[a-z]?)`. -/
def reIndividualPat : RE :=
  RE.cat [.group 1 (RE.cat [reAuthorName, reSecondAuthor, reEtAl]),
    .opt (RE.chr ','), .star reWsC, .group 2 reYear4]

/-- `AUTHOR_INLINE_PATTERN = (AUTHOR_NAME(?:\s+(?:&|and)\s+AUTHOR_NAME)?(?:\s+et\s+al\.?,?|\s+and\s+colleagues)?)\s*\((\d{4}[a-z]?)\)`. -/
def reInlinePat : RE :=
  RE.cat [.group 1 (RE.cat [reAuthorName, reSecondAuthor,
      .opt (.alt
        (RE.cat [RE.plus1 reWsC, RE.str "et", RE.plus1 reWsC, RE.str "al",
          .opt (RE.chr '.'), .opt (RE.chr ',')])
        (RE.cat [RE.plus1 reWsC, RE.str "and", RE.plus1 reWsC, RE.str "colleagues"]))]),
    .star reWsC, RE.chr '(', .group 2 reYear4, RE.chr ')']

/-- `NUMERIC_BRACKET_PATTERN = \[(\d+(?:\s*[-,]\s*\d+)*)\]`. -/
def reNumericBracketPat : RE :=
  RE.cat [RE.chr '[',
    .group 1 (.seq (RE.plus1 reDigitC)
      (.star (RE.cat [.star reWsC, .cls (fun c => c = '-' || c = ','),
        .star reWsC, RE.plus1 reDigitC]))),
    RE.chr ']']

/-- Substitution pattern `[()]` of `_extract_citation_authors`. -/
def reParensCls : RE := .cls fun c => c = '(' || c = ')'

/-- Substitution pattern `,?\s*\d{4}[a-z]?` of `_extract_citation_authors`. -/
def reYearSub : RE := RE.cat [.opt (RE.chr ','), .star reWsC, reYear4]

/-- Substitution pattern `\s+et\s+al\.?` (compiled with `re.IGNORECASE`). -/
def reEtAlSub : RE :=
  RE.cat [RE.plus1 reWsC, RE.strCI "et", RE.plus1 reWsC, RE.strCI "al", .opt (RE.chr '.')]

/-- Substitution pattern `\s+and\s+colleagues` (`re.IGNORECASE`). -/
def reAndColleaguesSub : RE :=
  RE.cat [RE.plus1 reWsC, RE.strCI "and", RE.plus1 reWsC, RE.strCI "colleagues"]

/-- Split pattern `\s+and\s+` (`re.IGNORECASE`). -/
def reAndSplit : RE := RE.cat [RE.plus1 reWsC, RE.strCI "and", RE.plus1 reWsC]

/-- Search pattern `\([^)]*\s+and\s+[^)]*\d{4}` of `_check_ampersand_usage`
(`re.IGNORECASE`). -/
def reAmpersandCheck : RE :=
  RE.cat [RE.chr '(', .star (.cls fun c => c ≠ ')'), RE.plus1 reWsC, RE.strCI "and",
    RE.plus1 reWsC, .star (.cls fun c => c ≠ ')'), reDigitC, reDigitC, reDigitC, reDigitC]

/-! ## Data model (`app/models/schemas.py`) -/

/-- Source `CitationType` enum. -/
inductive CitationType where
  | author_year
  | numeric
  | author_inline
deriving DecidableEq, Repr

/-- Display value of a `CitationType` (Python `enum.value`). -/
def CitationType.val : CitationType → String
  | .author_year => "author_year"
  | .numeric => "numeric"
  | .author_inline => "author_inline"

/-- Source `IssueSeverity` enum. -/
inductive IssueSeverity where
  | error
  | warning
  | info
deriving DecidableEq, Repr

/-- Source `Citation` model (a parsed reference entry).  The `confidence`
float is unused by the logic under verification and omitted. -/
structure Citation where
  id : String
  raw_text : String
  authors : List String := []
  title : Option String := none
  year : Option Int := none
  journal : Option String := none
  volume : Option String := none
  issue : Option String := none
  pages : Option String := none
  doi : Option String := none
  doi_url : Option String := none
deriving DecidableEq, Repr

/-- Source `InTextCitation` model (one in-text citation occurrence). -/
structure InTextCitation where
  text : String
  start_pos : Nat
  end_pos : Nat
  citation_type : CitationType
  reference_ids : List String := []
  context : String := ""
deriving DecidableEq, Repr

/-- Source `ValidationIssue` model. -/
structure ValidationIssue where
  issue_type : String
  description : String
  citation_text : Option String := none
  suggestion : Option String := none
  severity : IssueSeverity := .warning
  related_references : List String := []
deriving DecidableEq, Repr

/-- Source `ValidationReport` model. -/
structure ValidationReport where
  total_in_text_citations : Nat
  total_references : Nat
  matched_citations : Nat
  issues : List ValidationIssue
  is_valid : Bool
deriving DecidableEq, Repr

/-! ## Citation detection (`detect_citations` and helpers) -/

/-- Source `DetectionResult`. -/
structure DetectionResult where
  in_text_citations : List InTextCitation
  references : List Citation
  detected_type : CitationType
deriving DecidableEq, Repr

/-- Backward scan of `_extract_context`: model of
`while context_start > 0 and text[context_start] not in ' \n\t': context_start -= 1`. -/
def backWord (text : List Char) : Nat → Nat
  | 0 => 0
  | i + 1 =>
    if [' ', Char.ofNat 10, Char.ofNat 9].contains (text.getD (i + 1) ' ') then i + 1
    else backWord text i

/-- Worker for `fwdWord`: the loop runs at most `text.length - j` times, so
that fuel is exact (once it is exhausted, `j` has reached `text.length` and
both versions stop). -/
def fwdWordGo (text : List Char) : Nat → Nat → Nat
  | 0, j => j
  | fuel + 1, j =>
    if j < text.length then
      if [' ', Char.ofNat 10, Char.ofNat 9].contains (text.getD j ' ') then j
      else fwdWordGo text fuel (j + 1)
    else j

/-- Forward scan of `_extract_context`:
`while context_end < len(text) and text[context_end] not in ' \n\t': context_end += 1`. -/
def fwdWord (text : List Char) (j : Nat) : Nat := fwdWordGo text (text.length - j) j

/-- Source `_extract_context`: clip a ±`context_chars` window to word
boundaries and collapse whitespace. -/
def extract_context (text : List Char) (start stop context_chars : Nat) : String :=
  let cs0 := start - context_chars
  let ce0 := min text.length (stop + context_chars)
  let cs := if cs0 > 0 then backWord text cs0 + 1 else cs0
  let ce := if ce0 < text.length then fwdWord text ce0 else ce0
  let context := (text.take ce).drop cs
  String.mk (pyJoin [' '] (pySplitWs context))

/-- Source `_make_ref_id`: `{lower last name filtered}_{filtered year}`. -/
def make_ref_id (author year : List Char) : String :=
  let author := pyStrip author
  let last_name :=
    if author.contains ',' then (pySplitOn ',' author).headD []
    else match pySplitWs author with
      | p :: _ => p
      | [] => author
  let last_name := last_name.filter fun c =>
    ('a' ≤ c && c ≤ 'z') || ('A' ≤ c && c ≤ 'Z') || c = aposC || c = '-'
  let year := year.filter fun c => c.isDigit || ('a' ≤ c && c ≤ 'z')
  String.mk (pyLower last_name ++ '_' :: year)

/-- Model of `re.split(r'\s*,\s*', s)`: split at each comma, the separator
absorbing the whitespace adjacent to it. -/
def reSplitCommaWs (s : List Char) : List (List Char) :=
  let parts := pySplitOn ',' s
  let n := parts.length
  parts.mapIdx fun i p =>
    let p := if i = 0 then p else pyLstrip p
    if i + 1 = n then p else pyRstrip p

/-- Source `_parse_numeric_refs`: parse `'1, 2, 3'` or `'1-3'` into a list of
reference-id strings, expanding ranges (`refs.extend(str(i) for i in
range(int(start), int(end) + 1))`); a malformed part falls back to the
stripped part itself (the `except ValueError` branch). -/
def parse_numeric_refs (ref_string : List Char) : List String :=
  (reSplitCommaWs ref_string).foldl
    (fun refs part =>
      if part.contains '-' then
        match pySplitOn '-' part with
        | [a, b] =>
          match pyInt a, pyInt b with
          | some va, some vb => refs ++ (List.range' va (vb + 1 - va)).map Nat.repr
          | _, _ => refs ++ [String.mk (pyStrip part)]
        | _ => refs ++ [String.mk (pyStrip part)]
      else refs ++ [String.mk (pyStrip part)])
    []

/-- Body of the loop over `INDIVIDUAL_CITATION_PATTERN` matches inside one
`AUTHOR_YEAR_PATTERN` match `m`: the source emits one `InTextCitation` per
inner citation, all sharing `m`'s span and context window. -/
def split_author_year_group (text : List Char) (context_chars : Nat) (m : REMatch) :
    List InTextCitation :=
  let context := extract_context text m.start m.stop context_chars
  (reFinditer reIndividualPat (m.group 1)).map fun im =>
    let author := im.group 1
    let year := im.group 2
    { text := String.mk ('(' :: author ++ ',' :: ' ' :: year ++ [')'])
      start_pos := m.start
      end_pos := m.stop
      citation_type := .author_year
      reference_ids := [make_ref_id author year]
      context := context }

/-- Stable insertion of `x` into `l`: `x` goes before the first element not
strictly below it. -/
def insertStable {α : Type} (le : α → α → Bool) (x : α) : List α → List α
  | [] => [x]
  | y :: ys => if le x y then x :: y :: ys else y :: insertStable le x ys

/-- Stable sort (model of Python's stable `list.sort`/`sorted`): for a total
preorder `le`, the result is the unique `le`-sorted permutation preserving
the relative order of `le`-equivalent elements. -/
def sortStable {α : Type} (le : α → α → Bool) : List α → List α
  | [] => []
  | x :: xs => insertStable le x (sortStable le xs)

/-- Stable sort by `start_pos` (Python `list.sort(key=lambda c: c.start_pos)`). -/
def sortCitations (l : List InTextCitation) : List InTextCitation :=
  sortStable (fun a b => a.start_pos ≤ b.start_pos) l

/-- Source `detect_citations`: find all in-text citations and the dominant
citation type. -/
def detect_citations (text : List Char) (context_chars : Nat) : DetectionResult :=
  let author_year_matches := reFinditer reAuthorYearPat text
  let author_inline_matches := reFinditer reInlinePat text
  let numeric_matches := reFinditer reNumericBracketPat text
  let author_count := author_year_matches.length + author_inline_matches.length
  let numeric_count := numeric_matches.length
  if numeric_count > author_count then
    let citations := numeric_matches.map fun m =>
      { text := String.mk m.matched
        start_pos := m.start
        end_pos := m.stop
        citation_type := CitationType.numeric
        reference_ids := parse_numeric_refs (m.group 1)
        context := extract_context text m.start m.stop context_chars }
    ⟨sortCitations citations, [], .numeric⟩
  else
    -- primary author-year matches, split per inner citation
    let cits1 := author_year_matches.flatMap (split_author_year_group text context_chars)
    -- secondary scan of every parenthetical expression
    let cits2 := (reFinditer reParentheticalPat text).foldl
      (fun acc pm =>
        if author_year_matches.any fun m => m.start = pm.start ∧ m.stop = pm.stop then acc
        else
          (reFinditer reIndividualPat (pm.group 1)).foldl
            (fun acc im =>
              let author := im.group 1
              let year := im.group 2
              let cit_text := String.mk ('(' :: author ++ ',' :: ' ' :: year ++ [')'])
              if acc.any fun c =>
                  c.text = cit_text ∧ pm.start ≤ c.start_pos ∧ c.start_pos ≤ pm.stop then acc
              else acc ++
                [{ text := cit_text
                   start_pos := pm.start
                   end_pos := pm.stop
                   citation_type := .author_year
                   reference_ids := [make_ref_id author year]
                   context := extract_context text pm.start pm.stop context_chars }])
            acc)
      cits1
    -- inline narrative citations not overlapping a parenthetical match
    let cits3 := author_inline_matches.foldl
      (fun acc m =>
        if author_year_matches.any fun ay =>
            (ay.start ≤ m.start ∧ m.start < ay.stop) ∨ (ay.start < m.stop ∧ m.stop ≤ ay.stop)
        then acc
        else acc ++
          [{ text := String.mk m.matched
             start_pos := m.start
             end_pos := m.stop
             citation_type := CitationType.author_inline
             reference_ids := [make_ref_id (m.group 1) (m.group 2)]
             context := extract_context text m.start m.stop context_chars }])
      cits2
    ⟨sortCitations cits3, [], .author_year⟩

/-! ## Author matching (`MatchType`, `_fuzzy_author_match`) -/

/-- Source `MatchType` enum. -/
inductive MatchType where
  | NONE
  | EXACT
  | FUZZY
deriving DecidableEq, Repr

/-- Source `_fuzzy_author_match`: classify a pair of (lower-cased) author
names as `EXACT`, `FUZZY` or `NONE`. -/
def fuzzy_author_match (citation_author ref_author : List Char) : MatchType :=
  let ca := normalize_for_matching citation_author
  let ra := normalize_for_matching ref_author
  if ca = ra then .EXACT
  else if pyInSub ca ra || pyInSub ra ca then
    let len_diff := ((ca.length : Int) - (ra.length : Int)).natAbs
    if len_diff ≤ 2 then .FUZZY else .EXACT
  else
    let max_distance := if ca.length ≤ 6 then 1 else 2
    let distance := levenshtein_distance ca ra
    if distance ≤ max_distance then .FUZZY else .NONE

/-! ## Citation/reference matching (`_citations_match` and helpers) -/

/-- Multi-character Python `str.split(sep)` worker (non-empty separator;
fuel structural, exact at input length). -/
def pySplitOnStrGo (o : Char) (os : List Char) : Nat → List Char → List (List Char)
  | _, [] => [[]]
  | 0, _ => [[]]
  | fuel + 1, c :: rest =>
    if (o :: os).isPrefixOf (c :: rest) then
      [] :: pySplitOnStrGo o os fuel ((c :: rest).drop (o :: os).length)
    else match pySplitOnStrGo o os fuel rest with
      | t :: ts => (c :: t) :: ts
      | [] => [[c]]

/-- Python `str.split(sep)` for a multi-character separator. -/
def pySplitOnStr (sep : List Char) (s : List Char) : List (List Char) :=
  match sep with
  | [] => [s]
  | o :: os => pySplitOnStrGo o os s.length s

/-- Source `_extract_citation_authors`: strip parentheses, year, `et al.` and
`and colleagues` from an in-text citation, then split the author expression
on `&`/`and`, lower-casing and normalising each name. -/
def extract_citation_authors (citation_text : List Char) : List (List Char) :=
  let text := reSubDel reParensCls citation_text
  let text := reSubDel reYearSub text
  let text := pyStrip text
  let text := reSubDel reEtAlSub text
  let text := reSubDel reAndColleaguesSub text
  let authors :=
    if pyInSub " & ".data text then pySplitOnStr " & ".data text
    else if pyInSub " and ".data (pyLower text) then reSplit reAndSplit text
    else [text]
  (authors.filter fun a => pyStrip a ≠ []).map fun a =>
    normalize_for_matching (pyLower (pyStrip a))

/-- ASCII model of the regex word-character class `\w`. -/
def isWordChar (c : Char) : Bool := c.isAlphanum || c = '_'

/-- Left word-boundary test of the year searches: position 0 or a non-word
character before. -/
def leftBoundaryOk : Option Char → Bool
  | none => true
  | some p => !isWordChar p

/-- Right-hand side of `\d{2}[a-z]?\b`: the greedy optional letter
backtracks exactly as Python does. -/
def yearSuffixOk : List Char → Bool
  | [] => true
  | x :: rest2 =>
    if 'a' ≤ x ∧ x ≤ 'z' then
      match rest2 with
      | [] => true
      | y :: _ => !isWordChar y
    else !isWordChar x

/-- Worker for `findCitationYear`: scan the text, remembering the previous
character for the left word boundary. -/
def findYearAux (prev : Option Char) : List Char → Option Int
  | c1 :: c2 :: c3 :: c4 :: rest =>
    if leftBoundaryOk prev &&
        ((c1 = '1' && c2 = '9') || (c1 = '2' && c2 = '0')) && c3.isDigit && c4.isDigit &&
        yearSuffixOk rest
    then some ((digitsVal [c1, c2, c3, c4] : Nat) : Int)
    else findYearAux (some c1) (c2 :: c3 :: c4 :: rest)
  | c :: rest => findYearAux (some c) rest
  | [] => none

/-- Model of `re.search(r'\b(19|20)\d{2}[a-z]?\b', citation_text)` followed
by `int(match.group(0)[:4])` (the four digits, dropping the optional
disambiguator letter), as used in `_citations_match`. -/
def findCitationYear (s : List Char) : Option Int := findYearAux none s

/-- Python `suffix in`-style test: does `s` end with `suffix`? -/
def pyEndsWith (suffix s : List Char) : Bool := suffix.isSuffixOf s

/-- Source `_extract_last_name`: extract a surname from the various author
formats (`"Smith, J."`, Vancouver `"Smith JA"`, `"John Smith"`). -/
def extract_last_name (author : List Char) : List Char :=
  let author := pyStrip author
  let author :=
    if pyEndsWith " et al.".data (pyLower author) then
      pyStrip (author.take (author.length - 7))
    else author
  if author.contains ',' then pyStrip ((pySplitOn ',' author).headD [])
  else
    let parts := pySplitWs author
    if 2 ≤ parts.length then
      let last_part := parts.getLastD []
      let stripped := last_part.filter fun c => c ≠ '.'
      -- `len(x) <= 4 and x.isupper() and x.isalpha()` for the ASCII names the
      -- source handles: non-empty, at most four characters, all `A`–`Z`.
      let is_initials :=
        stripped.length ≤ 4 ∧ stripped ≠ [] ∧ stripped.all fun c => 'A' ≤ c ∧ c ≤ 'Z'
      if is_initials then pyJoin [' '] parts.dropLast else last_part
    else
      match parts with
      | p :: _ => p
      | [] => author

/-- Source `CitationMatchDetail`. -/
structure CitationMatchDetail where
  match_type : MatchType
  author_is_fuzzy : Bool := false
  year_is_fuzzy : Bool := false
  citation_author : List Char := []
  ref_author : List Char := []
  citation_year : Option Int := none
  ref_year : Option Int := none
deriving DecidableEq, Repr

/-- Normalised surname list of a reference's authors, as built inside
`_citations_match` (empty extractions are skipped). -/
def refLastNames (reference : Citation) : List (List Char) :=
  reference.authors.foldr
    (fun a acc =>
      let last_name := extract_last_name a.data
      if last_name ≠ [] then normalize_for_matching (pyLower last_name) :: acc else acc)
    []

/-- Source `_citations_match`: decide whether an in-text citation matches a
reference, with full fuzziness provenance.  `year_tolerance` defaults to 1
at every call site of the source. -/
def citations_match (in_text : InTextCitation) (reference : Citation)
    (year_tolerance : Int) : CitationMatchDetail :=
  if in_text.citation_type = .numeric then
    if in_text.reference_ids.contains reference.id then { match_type := .EXACT }
    else { match_type := .NONE }
  else
    let citation_text := in_text.text.data
    let citation_authors_list := extract_citation_authors citation_text
    let citation_year : Option Int := findCitationYear citation_text
    let ref_last_names := refLastNames reference
    let reference_year := reference.year
    match citation_authors_list, ref_last_names with
    | [], _ => { match_type := .NONE }
    | _ :: _, [] => { match_type := .NONE }
    | cf :: ctail, rf :: rtail =>
      -- year check and final assembly, shared by the one- and two-author paths
      let finish := fun (author_is_fuzzy : Bool) (fca fra : List Char) =>
        let yearRes : Bool × Bool :=
          if truthyInt citation_year ∧ truthyInt reference_year then
            let cy := citation_year.getD 0
            let ry := reference_year.getD 0
            let year_diff := (cy - ry).natAbs
            if year_diff = 0 then (true, false)
            else if (year_diff : Int) ≤ year_tolerance then (true, true)
            else (false, false)
          else (true, false)
        if yearRes.1 = false then { match_type := MatchType.NONE }
        else
          { match_type := if author_is_fuzzy ∨ yearRes.2 = true then .FUZZY else .EXACT
            author_is_fuzzy := author_is_fuzzy
            year_is_fuzzy := yearRes.2
            citation_author := if fca ≠ [] then fca else cf
            ref_author := if fra ≠ [] then fra else rf
            citation_year := citation_year
            ref_year := reference_year }
      let first_author_match := fuzzy_author_match cf rf
      if first_author_match = .NONE then { match_type := .NONE }
      else
        let afz1 := first_author_match = .FUZZY
        let fca1 := if first_author_match = .FUZZY then cf else []
        let fra1 := if first_author_match = .FUZZY then rf else []
        match ctail, rtail with
        | [cs], rs :: _ =>
          -- citation has exactly two authors and the reference at least two
          let second_author_match := fuzzy_author_match cs rs
          if second_author_match = .NONE then { match_type := .NONE }
          else
            let afz := afz1 ∨ second_author_match = .FUZZY
            let upd := fca1 = [] ∧ second_author_match = .FUZZY
            finish afz (if upd then cs else fca1) (if upd then rs else fra1)
        | _, _ => finish afz1 fca1 fra1

/-- Source `FuzzyMatchInfo`. -/
structure FuzzyMatchInfo where
  ref_id : String
  citation_author : List Char
  ref_author : List Char
  author_is_fuzzy : Bool
  year_is_fuzzy : Bool
  citation_year : Option Int := none
  ref_year : Option Int := none
deriving DecidableEq, Repr

/-- Source `MatchResult`; the Python dicts become insertion-ordered
association lists. -/
structure MatchResult where
  matches' : List (String × List String)
  fuzzy_matches : List (String × List FuzzyMatchInfo)
deriving DecidableEq, Repr

/-- Lookup in an insertion-ordered association list (Python `d.get(k)`). -/
def alGet {m_0 : Type} {α : Type} [DecidableEq m_0] (m : List (m_0 × α)) (k : m_0) : Option α :=
  (m.find? fun p => p.1 = k).map fun p => p.2

/-- Update of an insertion-ordered association list (Python `d[k] = v`):
an existing key keeps its position, a new key is appended. -/
def alSet {m_0 : Type} {α : Type} [DecidableEq m_0] (m : List (m_0 × α)) (k : m_0) (v : α) :
    List (m_0 × α) :=
  if m.any fun p => p.1 = k then m.map fun p => if p.1 = k then (k, v) else p
  else m ++ [(k, v)]

/-- Python `if k not in d: d[k] = []` followed by `d[k].append(v)` on a dict
of lists. -/
def alAppend {m_0 : Type} {α : Type} [DecidableEq m_0] (m : List (m_0 × List α)) (k : m_0)
    (v : α) : List (m_0 × List α) :=
  if m.any fun p => p.1 = k then m.map fun p => if p.1 = k then (p.1, p.2 ++ [v]) else p
  else m ++ [(k, [v])]

/-- Python `Counter`-style increment on a dict of counts. -/
def alBump {m_0 : Type} [DecidableEq m_0] (m : List (m_0 × Nat)) (k : m_0) : List (m_0 × Nat) :=
  if m.any fun p => p.1 = k then m.map fun p => if p.1 = k then (p.1, p.2 + 1) else p
  else m ++ [(k, 1)]

/-- Body of the reference loop of `match_citations_to_references`: record an
exact or fuzzy match of `citation` against `ref`. -/
def citation_match_step (citation : InTextCitation)
    (acc : List String × List FuzzyMatchInfo) (ref : Citation) :
    List String × List FuzzyMatchInfo :=
  let d := citations_match citation ref 1
  if d.match_type = .EXACT then (acc.1 ++ [ref.id], acc.2)
  else if d.match_type = .FUZZY then
    (acc.1 ++ [ref.id],
     acc.2 ++ [{ ref_id := ref.id
                 citation_author := d.citation_author
                 ref_author := d.ref_author
                 author_is_fuzzy := d.author_is_fuzzy
                 year_is_fuzzy := d.year_is_fuzzy
                 citation_year := d.citation_year
                 ref_year := d.ref_year }])
  else acc

/-- Inner loop of `match_citations_to_references`: the matched reference ids
and fuzzy-match details for one citation against every reference. -/
def citation_match_lists (references : List Citation) (citation : InTextCitation) :
    List String × List FuzzyMatchInfo :=
  references.foldl (citation_match_step citation) ([], [])

/-- Body of the citation loop of `match_citations_to_references`: store the
matched ids under the citation's text, and the fuzzy details when any. -/
def mcr_step (references : List Citation) (acc : MatchResult)
    (citation : InTextCitation) : MatchResult :=
  let lists := citation_match_lists references citation
  { matches' := alSet acc.matches' citation.text lists.1
    fuzzy_matches :=
      if lists.2 ≠ [] then alSet acc.fuzzy_matches citation.text lists.2
      else acc.fuzzy_matches }

/-- Source `match_citations_to_references`. -/
def match_citations_to_references (in_text : List InTextCitation)
    (references : List Citation) : MatchResult :=
  in_text.foldl (mcr_step references) ⟨[], []⟩

/-! ## Duplicate detection (`app/services/duplicate_detector.py`)

The `rapidfuzz` title similarity (`fuzz.ratio`) is an external library and is
passed in as a score function returning a percentage; confidences are
modelled as rationals (the source uses floats, but every comparison the
claims depend on is exact at the values involved). -/

/-- Source threshold `TITLE_SIMILARITY_THRESHOLD = 85` (percentage). -/
def TITLE_SIMILARITY_THRESHOLD : ℚ := 85

/-- Source threshold `AUTHOR_OVERLAP_THRESHOLD = 0.6` (fraction). -/
def AUTHOR_OVERLAP_THRESHOLD : ℚ := 6 / 10

/-- Source `DuplicateGroup`. -/
structure DuplicateGroup where
  reference_ids : List String
  reference_indices : List Nat
  confidence : ℚ
  match_type : String
  differences : List String
  raw_text_snippet : String := ""
deriving DecidableEq, Repr

/-- Source `_make_index_pair`: order-normalised index pair. -/
def make_index_pair (i j : Nat) : Nat × Nat := (min i j, max i j)

/-- Python `[references[i] for i in indices]`. -/
def refsAt (references : List Citation) (indices : List Nat) : List Citation :=
  indices.filterMap fun i => references[i]?

/-- Pairs added to `processed_pairs` for one duplicate group:
`for i, idx1 in enumerate(indices): for idx2 in indices[i+1:]`. -/
def allPairs : List Nat → List (Nat × Nat)
  | [] => []
  | i :: rest => (rest.map fun j => make_index_pair i j) ++ allPairs rest

/-- Python `refs[0].raw_text[:80] if refs[0].raw_text else ""`. -/
def snippetOf (refs : List Citation) : String :=
  match refs with
  | r :: _ => if r.raw_text ≠ "" then String.mk (r.raw_text.data.take 80) else ""
  | [] => ""

/-- Source `_find_differences`: human-readable differences between potential
duplicates. -/
def find_differences (refs : List Citation) : List String :=
  let author_strs := refs.map fun r =>
    if r.authors ≠ [] then String.intercalate ", " r.authors else ""
  let d1 : List String :=
    if 1 < author_strs.dedup.length then ["author formatting"] else []
  let years := refs.filterMap fun r =>
    match r.year with
    | some y => if y ≠ 0 then some y else none
    | none => none
  let d2 : List String :=
    if 1 < years.dedup.length then
      ["years differ (" ++ String.intercalate ", " (years.map toString) ++ ")"]
    else []
  let titles := refs.filterMap fun r =>
    match r.title with
    | some t => if t ≠ "" then some t else none
    | none => none
  let d3 : List String :=
    if 1 < titles.length ∧ 1 < (titles.map fun t => pyLower t.data).dedup.length then
      ["titles differ slightly"]
    else []
  let journals := refs.filterMap fun r =>
    match r.journal with
    | some j => if j ≠ "" then some j else none
    | none => none
  let d4 : List String :=
    if 1 < (journals.map fun j => pyLower j.data).dedup.length then
      ["journal names differ"]
    else []
  let dois := refs.map fun r => r.doi
  let d5 : List String :=
    if (dois.any fun d => truthyStrS d) ∧ ¬ (dois.all fun d => truthyStrS d) then
      ["only some have DOI"]
    else []
  d1 ++ d2 ++ d3 ++ d4 ++ d5

/-- Source `_normalize_author` of the duplicate detector. -/
def normalize_author_dd (author : List Char) : List Char :=
  let author := pyStrip (pyLower author)
  if author.contains ',' then pyStrip ((pySplitOn ',' author).headD [])
  else match (pySplitWs author).getLast? with
    | some p => p
    | none => author

/-- Source `_has_author_year_match`: author-set overlap of at least 60%
together with years within one (both-absent allowed, one-sided presence
rejected). -/
def has_author_year_match (ref1 ref2 : Citation) : Bool :=
  let yearOk :=
    if truthyInt ref1.year ∧ truthyInt ref2.year then
      ((ref1.year.getD 0) - (ref2.year.getD 0)).natAbs ≤ 1
    else if truthyInt ref1.year ∨ truthyInt ref2.year then false
    else true
  if ¬ yearOk then false
  else if ref1.authors = [] ∨ ref2.authors = [] then false
  else
    let authors1 := (ref1.authors.map fun a => normalize_author_dd a.data).dedup
    let authors2 := (ref2.authors.map fun a => normalize_author_dd a.data).dedup
    let overlap := (authors1.filter fun a => authors2.contains a).length
    let total := max authors1.length authors2.length
    if total = 0 then false
    else AUTHOR_OVERLAP_THRESHOLD ≤ (overlap : ℚ) / (total : ℚ)

/-- Index pairs `(i, j)` with `i < j < n` in the order of the source's nested
loops (`for i, ref1 in enumerate(references): for j, ref2 in
enumerate(references[i+1:], start=i+1)`). -/
def indexPairs (n : Nat) : List (Nat × Nat) :=
  (List.range n).flatMap fun i => (List.range' (i + 1) (n - (i + 1))).map fun j => (i, j)

/-- Strategies 0–3 of `detect_duplicates`, producing the duplicate groups and
threading `processed_pairs`; `fz` is the external `rapidfuzz` `fuzz.ratio`. -/
def detect_duplicate_groups (fz : String → String → ℚ) (references : List Citation) :
    List DuplicateGroup :=
  -- Strategy 0: exact raw-text duplicates
  let text_map : List (List Char × List Nat) :=
    references.enum.foldl
      (fun m p =>
        if p.2.raw_text ≠ "" then alAppend m (pyLower (pyStrip p.2.raw_text.data)) p.1
        else m)
      []
  let st0 : List DuplicateGroup × List (Nat × Nat) :=
    text_map.foldl
      (fun acc kv =>
        if 1 < kv.2.length then
          let refs := refsAt references kv.2
          (acc.1 ++
            [{ reference_ids := refs.map (·.id)
               reference_indices := kv.2.map (· + 1)
               confidence := 1
               match_type := "exact_duplicate"
               differences := []
               raw_text_snippet := snippetOf refs }],
           acc.2 ++ allPairs kv.2)
        else acc)
      ([], [])
  -- Strategy 1: identical normalised DOI
  let doi_map : List (List Char × List Nat) :=
    references.enum.foldl
      (fun m p =>
        match p.2.doi with
        | some d => if d ≠ "" then alAppend m (pyStrip (pyLower d.data)) p.1 else m
        | none => m)
      []
  let st1 : List DuplicateGroup × List (Nat × Nat) :=
    doi_map.foldl
      (fun acc kv =>
        if 1 < kv.2.length then
          if acc.2.contains (make_index_pair (kv.2.headD 0) (kv.2.getD 1 0)) then acc
          else
            let refs := refsAt references kv.2
            (acc.1 ++
              [{ reference_ids := refs.map (·.id)
                 reference_indices := kv.2.map (· + 1)
                 confidence := 1
                 match_type := "doi_match"
                 differences := find_differences refs
                 raw_text_snippet := snippetOf refs }],
             acc.2 ++ allPairs kv.2)
        else acc)
      st0
  -- Strategy 2: fuzzy title similarity
  let st2 : List DuplicateGroup × List (Nat × Nat) :=
    (indexPairs references.length).foldl
      (fun acc ij =>
        if acc.2.contains (make_index_pair ij.1 ij.2) then acc
        else
          match references[ij.1]?, references[ij.2]? with
          | some ref1, some ref2 =>
            match ref1.title, ref2.title with
            | some t1, some t2 =>
              if t1 ≠ "" ∧ t2 ≠ "" then
                let similarity := fz (String.mk (pyLower t1.data)) (String.mk (pyLower t2.data))
                if TITLE_SIMILARITY_THRESHOLD ≤ similarity then
                  (acc.1 ++
                    [{ reference_ids := [ref1.id, ref2.id]
                       reference_indices := [ij.1 + 1, ij.2 + 1]
                       confidence := similarity / 100
                       match_type := "title_fuzzy"
                       differences := find_differences [ref1, ref2]
                       raw_text_snippet :=
                         if ref1.raw_text ≠ "" then String.mk (ref1.raw_text.data.take 80) else "" }],
                   acc.2 ++ [make_index_pair ij.1 ij.2])
                else acc
              else acc
            | _, _ => acc
          | _, _ => acc)
      st1
  -- Strategy 3: author overlap plus similar year
  let st3 : List DuplicateGroup × List (Nat × Nat) :=
    (indexPairs references.length).foldl
      (fun acc ij =>
        if acc.2.contains (make_index_pair ij.1 ij.2) then acc
        else
          match references[ij.1]?, references[ij.2]? with
          | some ref1, some ref2 =>
            if has_author_year_match ref1 ref2 then
              (acc.1 ++
                [{ reference_ids := [ref1.id, ref2.id]
                   reference_indices := [ij.1 + 1, ij.2 + 1]
                   confidence := 7 / 10
                   match_type := "author_year"
                   differences := find_differences [ref1, ref2]
                   raw_text_snippet :=
                     if ref1.raw_text ≠ "" then String.mk (ref1.raw_text.data.take 80) else "" }],
               acc.2 ++ [make_index_pair ij.1 ij.2])
            else acc
          | _, _ => acc)
      st2
  st3.1

/-- Python `f"{q:.0%}"` on a confidence: percentage rounded to an integer
(the source formats a float with banker's rounding; the confidences compared
by the claims are exact, so the rounding mode is immaterial). -/
def formatPct (q : ℚ) : String := toString (round (q * 100)) ++ "%"

/-- Conversion of one `DuplicateGroup` into the emitted `ValidationIssue`
(the final loop of `detect_duplicates`). -/
def duplicate_issue_of_group (g : DuplicateGroup) : ValidationIssue :=
  let severity := if (9 : ℚ) / 10 ≤ g.confidence then IssueSeverity.warning else IssueSeverity.info
  let description :=
    if g.match_type = "exact_duplicate" then
      "Identical reference appears multiple times in reference list"
    else
      let diff_text :=
        if g.differences ≠ [] then " Differences: " ++ String.intercalate "; " g.differences
        else ""
      "Possible duplicate references (" ++ g.match_type ++ ", " ++ formatPct g.confidence ++
        " confidence)" ++ diff_text
  let positions := String.intercalate ", " (g.reference_indices.map fun i => "#" ++ toString i)
  let citation_text :=
    if g.reference_ids.dedup.length = 1 then
      "Refs " ++ positions ++ ": " ++ g.raw_text_snippet ++ "..."
    else
      "Refs " ++ positions ++ " (" ++ String.intercalate ", " g.reference_ids ++ ")"
  { issue_type := "potential_duplicate"
    description := description
    citation_text := some citation_text
    suggestion := some "Remove the duplicate entry from your reference list"
    severity := severity
    related_references := g.reference_ids }

/-- Source `detect_duplicates`: duplicate-reference issues from all four
strategies. -/
def detect_duplicates (fz : String → String → ℚ) (references : List Citation) :
    List ValidationIssue :=
  (detect_duplicate_groups fz references).map duplicate_issue_of_group

/-- Source `completeness_score` inside `merge_duplicates`:
`(has_doi, number of present fields)`. -/
def completeness_score (ref : Citation) : Nat × Nat :=
  let has_doi := if truthyStrS ref.doi then 1 else 0
  let field_count :=
    (if ref.authors ≠ [] then 1 else 0) + (if truthyInt ref.year then 1 else 0) +
    (if truthyStrS ref.title then 1 else 0) + (if truthyStrS ref.journal then 1 else 0) +
    (if truthyStrS ref.volume then 1 else 0) + (if truthyStrS ref.pages then 1 else 0)
  (has_doi, field_count)

/-- Lexicographic order on completeness scores. -/
def scoreTupleLe (a b : Nat × Nat) : Bool := a.1 < b.1 ∨ (a.1 = b.1 ∧ a.2 ≤ b.2)

/-- Body of the field-filling loop of `merge_duplicates`: copy DOI (with its
URL), pages, volume, issue and journal from `ref` into `best` when missing. -/
def merge_fill (best ref : Citation) : Citation :=
  let best :=
    if ¬ truthyStrS best.doi ∧ truthyStrS ref.doi then
      { best with doi := ref.doi, doi_url := ref.doi_url }
    else best
  let best :=
    if ¬ truthyStrS best.pages ∧ truthyStrS ref.pages then { best with pages := ref.pages }
    else best
  let best :=
    if ¬ truthyStrS best.volume ∧ truthyStrS ref.volume then
      { best with volume := ref.volume }
    else best
  let best :=
    if ¬ truthyStrS best.issue ∧ truthyStrS ref.issue then { best with issue := ref.issue }
    else best
  let best :=
    if ¬ truthyStrS best.journal ∧ truthyStrS ref.journal then
      { best with journal := ref.journal }
    else best
  best

/-- Source `merge_duplicates`: merge duplicates into the most complete
reference, filling missing fields from the others.  The source raises
`ValueError` on an empty list, modelled by `none`. -/
def merge_duplicates (refs : List Citation) : Option Citation :=
  match refs with
  | [] => none
  | [r] => some r
  | _ =>
    let sorted_refs := sortStable
      (fun a b => scoreTupleLe (completeness_score b) (completeness_score a)) refs
    match sorted_refs with
    | [] => none
    | best :: rest => some (rest.foldl merge_fill best)

/-! ## DOI extraction and reference parsing (`_extract_doi`,
`_parse_single_reference`, `parse_references`) -/

/-- Character class `[^\s\]>]` of the DOI suffix. -/
def doiTailChar (c : Char) : Bool := ¬ (isPyWs c ∨ c = ']' ∨ c = '>')

/-- Match the capture group `10\.\d{4,}/[^\s\]>]+` at the head of the input,
returning the matched characters (all quantifiers greedy; no backtracking is
possible since the follow-sets are disjoint). -/
def matchDoiCore (s : List Char) : Option (List Char) :=
  match s with
  | '1' :: '0' :: '.' :: rest =>
    let digits := rest.takeWhile Char.isDigit
    let rest2 := rest.dropWhile Char.isDigit
    if 4 ≤ digits.length then
      match rest2 with
      | '/' :: rest3 =>
        let tail := rest3.takeWhile doiTailChar
        if tail ≠ [] then some ('1' :: '0' :: '.' :: digits ++ '/' :: tail) else none
      | _ => none
    else none
  | _ => none

/-- Consume a case-insensitive literal. -/
def dropLitCI (lit : List Char) (s : List Char) : Option (List Char) :=
  match lit, s with
  | [], s => some s
  | l :: ls, c :: cs => if eqCI c l then dropLitCI ls cs else none
  | _ :: _, [] => none

/-- Consume the optional prefix `doi[:\s]*` (case-insensitive). -/
def matchDoiPre (s : List Char) : Option (List Char) :=
  match dropLitCI "doi".data s with
  | some r => some (r.dropWhile fun c => c = ':' ∨ isPyWs c)
  | none => none

/-- Consume the optional prefix `https?://(?:dx\.)?doi\.org/`
(case-insensitive), with the backtracking of the two inner options. -/
def matchDoiUrl (s : List Char) : Option (List Char) :=
  match dropLitCI "http".data s with
  | none => none
  | some s1 =>
    let s2opt :=
      match s1 with
      | c :: rest =>
        if eqCI c 's' then
          match dropLitCI "://".data rest with
          | some r2 => some r2
          | none => dropLitCI "://".data s1
        else dropLitCI "://".data s1
      | [] => none
    match s2opt with
    | none => none
    | some s2 =>
      match dropLitCI "dx.".data s2 with
      | some r =>
        match dropLitCI "doi.org/".data r with
        | some r2 => some r2
        | none => dropLitCI "doi.org/".data s2
      | none => dropLitCI "doi.org/".data s2

/-- Try the DOI pattern at one position: the optional prefixes are attempted
in Python's greedy priority order, the capture group being the core match. -/
def extract_doi_at (s : List Char) : Option (List Char) :=
  let cands :=
    (match matchDoiPre s with
     | some r1 =>
       (match matchDoiUrl r1 with
        | some r2 => [r2, r1]
        | none => [r1])
     | none => []) ++
    (match matchDoiUrl s with
     | some r2 => [r2]
     | none => []) ++ [s]
  cands.findSome? matchDoiCore

/-- Scan for the leftmost DOI match (Python `re.search`). -/
def extract_doi_scan : List Char → Option (List Char)
  | [] => none
  | s@(_ :: rest) =>
    match extract_doi_at s with
    | some g => some g
    | none => extract_doi_scan rest

/-- Source `_extract_doi`: search for a DOI and strip trailing `.,;`. -/
def extract_doi (text : List Char) : Option String :=
  match extract_doi_scan text with
  | some g => some (String.mk (pyRstripSet ['.', ',', ';'] g))
  | none => none

/-- Right-hand boundary of `\d{2}\b` (no optional letter). -/
def plainSuffixOk : List Char → Bool
  | [] => true
  | x :: _ => !isWordChar x

/-- Model of `re.search(r'\b(19|20)\d{2}\b', entry)` followed by
`int(match.group(0))`: like `findCitationYear` but without the optional
trailing letter (so `2020a` does not match). -/
def findYearPlainAux (prev : Option Char) : List Char → Option Int
  | c1 :: c2 :: c3 :: c4 :: rest =>
    if leftBoundaryOk prev &&
        ((c1 = '1' && c2 = '9') || (c1 = '2' && c2 = '0')) && c3.isDigit && c4.isDigit &&
        plainSuffixOk rest
    then some ((digitsVal [c1, c2, c3, c4] : Nat) : Int)
    else findYearPlainAux (some c1) (c2 :: c3 :: c4 :: rest)
  | c :: rest => findYearPlainAux (some c) rest
  | [] => none

/-- Entry point of `findYearPlainAux`. -/
def findYearPlain (s : List Char) : Option Int := findYearPlainAux none s

/-- Results of the four reference-style grammars used by
`_parse_single_reference` (`AUTHOR_YEAR_REF_PATTERN` with `_parse_authors`,
`HARVARD_REF_PATTERN` with `_parse_harvard_remainder`,
`VANCOUVER_REF_PATTERN` with `_extract_vancouver_metadata`,
`NUMBERED_REF_PATTERN`, and `_extract_authors_fallback`).  They are passed as
a parameter: every branch of the source builds its `Citation` from the
`doi`/`doi_url` pair computed before the grammar dispatch — the part the
claims depend on — while the style grammars only fill the bibliographic
fields. -/
structure RefGrammars where
  author_year_ref : List Char → Option (List String × Int × String)
  harvard_ref : List Char →
    Option (List String × Int ×
      (Option String × Option String × Option String × Option String × Option String))
  vancouver_ref : List Char →
    Option (List String × String ×
      (Option String × Option String × Option String × Option String))
  numbered_ref : List Char → Option (List String × String)
  fallback_authors : List Char → List String

/-- Python `authors[0] if authors else f"ref{idx}"` as a character list. -/
def firstAuthorOr (authors : List String) (idx : Nat) : List Char :=
  match authors with
  | a :: _ => a.data
  | [] => ("ref" ++ toString idx).data

/-- Source `_parse_single_reference`: strip the entry, extract the DOI and a
fallback year, then dispatch on the four style grammars. -/
def parse_single_reference (G : RefGrammars) (entry0 : List Char) (idx : Nat) : Citation :=
  let entry := pyStrip entry0
  let doi := extract_doi entry
  let doi_url := if truthyStrS doi then doi.map (fun d => "https://doi.org/" ++ d) else none
  let year0 : Option Int := findYearPlain entry
  let raw := String.mk entry
  match G.author_year_ref entry with
  | some (authors, year, title) =>
    { id := make_ref_id (firstAuthorOr authors idx) (toString year).data
      raw_text := raw
      authors := authors
      title := some title
      year := some year
      doi := doi
      doi_url := doi_url }
  | none =>
  match G.harvard_ref entry with
  | some (authors, year, (title, journal, volume, issue, pages)) =>
    { id := make_ref_id (firstAuthorOr authors idx) (toString year).data
      raw_text := raw
      authors := authors
      title := title
      year := some year
      journal := journal
      volume := volume
      issue := issue
      pages := pages
      doi := doi
      doi_url := doi_url }
  | none =>
  match G.vancouver_ref entry with
  | some (authors, title, (journal, volume, issue, pages)) =>
    { id := make_ref_id (firstAuthorOr authors idx)
        (match year0 with | some y => (toString y).data | none => [])
      raw_text := raw
      authors := authors
      title := some title
      year := year0
      journal := journal
      volume := volume
      issue := issue
      pages := pages
      doi := doi
      doi_url := doi_url }
  | none =>
  match G.numbered_ref entry with
  | some (authors, title) =>
    { id := toString (idx + 1)
      raw_text := raw
      authors := authors
      title := some title
      year := year0
      doi := doi
      doi_url := doi_url }
  | none =>
    let authors := G.fallback_authors entry
    { id := make_ref_id (firstAuthorOr authors idx)
        (match year0 with | some y => (toString y).data | none => [])
      raw_text := raw
      authors := authors
      year := year0
      doi := doi
      doi_url := doi_url }

/-- Source `parse_references`. -/
def parse_references (G : RefGrammars) (reference_entries : List String) : List Citation :=
  reference_entries.enum.map fun p => parse_single_reference G p.2.data p.1

/-! ## Validator (`app/services/validator.py`) -/

/-- Helper quoting a name in single ASCII quotes (for the source's
f-strings). -/
def sq (s : List Char) : String := String.mk (aposC :: s ++ [aposC])

/-- Validator`s own `_extract_citation_author_names` (it differs from the
detector's `_extract_citation_authors`: the strip happens after all four
substitutions and only dashes are normalised). -/
def v_extract_citation_author_names (citation_text : List Char) : List (List Char) :=
  let text := reSubDel reParensCls citation_text
  let text := reSubDel reYearSub text
  let text := reSubDel reEtAlSub text
  let text := reSubDel reAndColleaguesSub text
  let text := pyStrip text
  let authors :=
    if pyInSub " & ".data text then pySplitOnStr " & ".data text
    else if pyInSub " and ".data (pyLower text) then reSplit reAndSplit text
    else [text]
  (authors.filter fun a => pyStrip a ≠ []).map fun a => normalize_dashes (pyLower (pyStrip a))

/-- First character class `[A-Za-z]` of `_get_ref_last_name`'s pattern. -/
def vLetterC : RE := .cls Char.isAlpha

/-- Tail class `[a-zA-Z\-‐‑‒–—]` of the same pattern. -/
def vNameTailC : RE := .cls fun c => c.isAlpha || c = '-' || dashChars.contains c

/-- Pattern `^([A-Za-z][a-zA-Z\-…]+(?:\s+[A-Za-z][a-zA-Z\-…]+)*)\s+[A-Z]+`
of the validator's `_get_ref_last_name`. -/
def reVRefLastName : RE :=
  RE.cat [.group 1 (RE.cat [vLetterC, RE.plus1 vNameTailC,
      .star (RE.cat [RE.plus1 reWsC, vLetterC, RE.plus1 vNameTailC])]),
    RE.plus1 reWsC, RE.plus1 reUpperC]

/-- Pattern `^[A-Z]+\.?$` used on the last word. -/
def allCapsWord (w : List Char) : Bool :=
  let core := if pyEndsWith ['.'] w then w.dropLast else w
  core ≠ [] ∧ core.all fun c => 'A' ≤ c ∧ c ≤ 'Z'

/-- Validator `_get_ref_last_name`. -/
def v_get_ref_last_name (author0 : List Char) : List Char :=
  let author := pyStrip author0
  if author.contains ',' then
    normalize_dashes (pyLower (pyStrip ((pySplitOn ',' author).headD [])))
  else
    match reMatchHead reVRefLastName author with
    | some (n, caps) =>
      let g1 := ((caps.find? fun p => p.1 = 1).map fun p => p.2).getD []
      let _ := n
      normalize_dashes (pyLower g1)
    | none =>
      let parts := pySplitWs author
      match parts with
      | [] => normalize_dashes (pyLower author)
      | [p] => normalize_dashes (pyLower p)
      | _ :: _ :: _ =>
        if allCapsWord (parts.getLastD []) then
          normalize_dashes (pyLower (parts.headD []))
        else normalize_dashes (pyLower (parts.getLastD []))

/-- Validator `_fuzzy_author_match` (the `(bool, reason)` variant). -/
def v_fuzzy_author_match (citation_author ref_name : List Char) : Bool × String :=
  let ca := normalize_dashes citation_author
  let rn := normalize_dashes ref_name
  let typo := "possible typo: " ++ sq rn ++ " not " ++ sq ca
  if ca = rn then (true, "")
  else if pyInSub ca rn || pyInSub rn ca then
    if ((ca.length : Int) - (rn.length : Int)).natAbs ≤ 2 then (true, typo) else (true, "")
  else
    let distance := levenshtein_distance ca rn
    let max_distance := if ca.length ≤ 6 then 1 else 2
    if distance ≤ max_distance then (true, typo) else (false, "")

/-- Loop body of `_suggest_citation_for_uncited_ref`: first unmatched
citation that is a typo-grade fuzzy match with compatible year (`break` on
success). -/
def findBestTypo (ref_first_author : List Char) (ref_year : Option Int) :
    List InTextCitation → Option (String × String)
  | [] => none
  | citation :: rest =>
    let citation_authors := v_extract_citation_author_names citation.text.data
    let citation_year := findYearPlain citation.text.data
    match citation_authors with
    | [] => findBestTypo ref_first_author ref_year rest
    | first_cit_author :: _ =>
      let res := v_fuzzy_author_match first_cit_author ref_first_author
      if res.1 ∧ res.2 ≠ "" then
        let yearRes : Bool × String :=
          if truthyInt citation_year ∧ truthyInt ref_year then
            let yd := ((citation_year.getD 0) - (ref_year.getD 0)).natAbs
            if 2 < yd then (false, "")
            else if 0 < yd then
              (true, "; year differs: " ++ toString (ref_year.getD 0) ++ " vs " ++
                toString (citation_year.getD 0))
            else (true, "")
          else (true, "")
        if yearRes.1 then some (citation.text, res.2 ++ yearRes.2)
        else findBestTypo ref_first_author ref_year rest
      else findBestTypo ref_first_author ref_year rest

/-- Source `_suggest_citation_for_uncited_ref`. -/
def suggest_citation_for_uncited_ref (ref : Citation)
    (unmatched_citations : List InTextCitation) : String :=
  match ref.authors with
  | [] => "Consider removing this reference or adding a citation"
  | a :: _ =>
    let ref_first_author := v_get_ref_last_name a.data
    match findBestTypo ref_first_author ref.year unmatched_citations with
    | some (text, reason) => "Possible typo match: " ++ text ++ " (" ++ reason ++ ")"
    | none => "Consider removing this reference or adding a citation"

/-- Source `_find_unmatched_citations`: citations (deduplicated by text)
without any matched reference. -/
def find_unmatched_citations (citations : List InTextCitation)
    (ms : List (String × List String)) : List InTextCitation :=
  (citations.foldl
    (fun (acc : List InTextCitation × List String) citation =>
      if acc.2.contains citation.text then acc
      else if (alGet ms citation.text).getD [] = [] then
        (acc.1 ++ [citation], acc.2 ++ [citation.text])
      else acc)
    ([], [])).1

/-- Source `_find_uncited_references`. -/
def find_uncited_references (references : List Citation) (cited_ids : List String) :
    List Citation :=
  references.filter fun r => ¬ cited_ids.contains r.id

/-- Source `_normalize_reference_key` (legacy duplicate detection). -/
def normalize_reference_key (ref : Citation) : String :=
  let parts : List (List Char) := []
  let parts :=
    match ref.authors with
    | a :: _ =>
      let author := pyLower a.data
      let author :=
        if author.contains ',' then (pySplitOn ',' author).headD []
        else match (pySplitWs author).getLast? with
          | some w => w
          | none => author
      parts ++ [author.take 10]
    | [] => parts
  let parts := if truthyInt ref.year then parts ++ [(toString (ref.year.getD 0)).data] else parts
  let parts :=
    match ref.title with
    | some t => if t ≠ "" then parts ++ [pyJoin ['_'] ((pySplitWs (pyLower t.data)).take 3)] else parts
    | none => parts
  String.mk (pyJoin ['|'] parts)

/-- Source `_find_duplicate_references` (legacy path). -/
def find_duplicate_references (references : List Citation) : List (List Citation) :=
  let seen := references.foldl (fun m ref => alAppend m (normalize_reference_key ref) ref) []
  ((seen.filter fun kv => 1 < kv.2.length).map fun kv => kv.2)

/-- Source `_check_format_consistency`. -/
def check_format_consistency (citations : List InTextCitation) : List ValidationIssue :=
  if citations = [] then []
  else
    let type_counts := citations.foldl (fun m c => alBump m c.citation_type) []
    if type_counts.length ≤ 1 then []
    else
      -- `Counter.most_common(1)[0][0]`: maximal count, first-encountered wins ties
      let dominant :=
        (type_counts.foldl (fun best p => if best.2 < p.2 then p else best)
          (type_counts.headD (.author_year, 0))).1
      let minority := (type_counts.map fun p => p.1).filter fun t => t ≠ dominant
      minority.flatMap fun mty =>
        ((citations.filter fun c => c.citation_type = mty).take 3).map fun citation =>
          { issue_type := "inconsistent_format"
            description := "Citation format (" ++ mty.val ++ ") differs from dominant format (" ++
              dominant.val ++ ")"
            citation_text := some citation.text
            suggestion := some ("Consider reformatting to match " ++ dominant.val ++ " style") }

/-- Source `_check_ampersand_usage`. -/
def check_ampersand_usage (citations : List InTextCitation) : List ValidationIssue :=
  citations.foldl
    (fun issues citation =>
      if citation.citation_type ≠ .author_year then issues
      else if reSearchB reAmpersandCheck citation.text.data then
        issues ++
          [{ issue_type := "style_warning"
             description := "Use " ++ sq ['&'] ++ " instead of " ++ sq "and".data ++
               " inside parenthetical citations"
             citation_text := some citation.text
             suggestion := some (String.mk (pyReplaceSub " And ".data " & ".data
               (pyReplaceSub " and ".data " & ".data citation.text.data))) }]
      else issues)
    []

/-- External collaborators of `validate_citations`: the suggestion engine
(`_suggest_reference_fix`, CrossRef-network dependent), the completeness and
journal checkers (separate modules), the retraction checker (network), and
the `rapidfuzz` score used by the advanced duplicate detector.  None of them
influences the matching or the `matched_citations` count. -/
structure ValidatorExt where
  suggest_reference_fix : InTextCitation → List Citation → Bool → Option String
  check_reference_completeness : List Citation → List ValidationIssue
  check_journal_consistency : List Citation → List ValidationIssue
  check_retractions_issues : List Citation → List ValidationIssue
  fuzz_score : String → String → ℚ

/-- Source `validate_citations`: match citations against references and
accumulate all enabled checks into a `ValidationReport`.  The
`progress_callback` parameter of the source only reports progress and is
omitted. -/
def validate_citations (ext : ValidatorExt) (in_text_citations : List InTextCitation)
    (references : List Citation) (enable_web_search check_completeness
    detect_duplicates_advanced check_retractions check_journal_names : Bool) :
    ValidationReport :=
  let match_result := match_citations_to_references in_text_citations references
  let cited_ref_ids := (match_result.matches'.map fun p => p.2).flatten
  let unmatched_citations := find_unmatched_citations in_text_citations match_result.matches'
  let missing_issues := unmatched_citations.map fun citation =>
    { issue_type := "missing_reference"
      description := "In-text citation has no matching reference"
      citation_text := some citation.text
      suggestion := ext.suggest_reference_fix citation references enable_web_search
      : ValidationIssue }
  let fuzzy_issues := match_result.fuzzy_matches.flatMap fun kv =>
    kv.2.foldl
      (fun acc info =>
        if info.author_is_fuzzy then
          acc ++
            [{ issue_type := "spelling_mismatch"
               description := "Possible author name spelling mismatch"
               citation_text := some kv.1
               suggestion := some ("Citation uses " ++ sq (pyTitle info.citation_author) ++
                 " but reference has " ++ sq (pyTitle info.ref_author) ++
                 ". Verify correct spelling.") }]
        else if info.year_is_fuzzy ∧ truthyInt info.citation_year ∧ truthyInt info.ref_year then
          acc ++
            [{ issue_type := "year_mismatch"
               description := "Year differs between citation and reference"
               citation_text := some kv.1
               suggestion := some ("Citation says " ++ toString (info.citation_year.getD 0) ++
                 " but reference has " ++ toString (info.ref_year.getD 0) ++
                 ". Verify correct year.") }]
        else acc)
      []
  let uncited_refs := find_uncited_references references cited_ref_ids
  let uncited_issues := uncited_refs.map fun ref =>
    { issue_type := "uncited_reference"
      description := "Reference is not cited in the text"
      citation_text := some
        (if 100 < ref.raw_text.data.length then String.mk (ref.raw_text.data.take 100) ++ "..."
         else ref.raw_text)
      suggestion := some (suggest_citation_for_uncited_ref ref unmatched_citations)
      : ValidationIssue }
  let dup_issues :=
    if detect_duplicates_advanced then detect_duplicates ext.fuzz_score references
    else (find_duplicate_references references).map fun dup_group =>
      { issue_type := "duplicate_reference"
        description := "Possible duplicate references found"
        citation_text := some (String.intercalate "; " (dup_group.map fun r => r.id))
        suggestion := some "Review and merge these references if they are duplicates" }
  let format_issues := check_format_consistency in_text_citations
  let amp_issues := check_ampersand_usage in_text_citations
  let completeness_issues :=
    if check_completeness then ext.check_reference_completeness references else []
  let journal_issues :=
    if check_journal_names then ext.check_journal_consistency references else []
  let retraction_issues :=
    if check_retractions then ext.check_retractions_issues references else []
  let issues := missing_issues ++ fuzzy_issues ++ uncited_issues ++ dup_issues ++
    format_issues ++ amp_issues ++ completeness_issues ++ journal_issues ++ retraction_issues
  let matched_count :=
    (in_text_citations.filter fun c => (alGet match_result.matches' c.text).getD [] ≠ []).length
  { total_in_text_citations := in_text_citations.length
    total_references := references.length
    matched_citations := matched_count
    issues := issues
    is_valid := issues.length = 0 }

/-- The citation text used by the concrete `match_citations_to_references`
examples. -/
def smithKey : String := "(Smith, 2020)"

/-- The DOI-link invariant of the data model: `doi_url` is set iff `doi` is
set, and then equals the string `https://doi.org/` followed by the DOI. -/
def doiInv (r : Citation) : Prop :=
  (r.doi = none ∧ r.doi_url = none) ∨
  ∃ d, r.doi = some d ∧ r.doi_url = some ("https://doi.org/" ++ d)

/-- A concrete reference with an upper-case DOI, for exercising the two-DOI
duplicate scenario. -/
def c5ref1 : Citation :=
  { id := "smith_2020", raw_text := "Smith J (2020) One. doi:10.1234/ABC",
    doi := some "10.1234/ABC" }

/-- A concrete reference with the same DOI in lower case and a different raw
text. -/
def c5ref2 : Citation :=
  { id := "smith_2020b", raw_text := "Smith, J. (2020). Two.", doi := some "10.1234/abc" }

/-- Trivial style grammars (no pattern matches): the DOI invariant holds for
every grammar bundle, this one makes it executable. -/
def c9grammars : RefGrammars :=
  { author_year_ref := fun _ => none, harvard_ref := fun _ => none,
    vancouver_ref := fun _ => none, numbered_ref := fun _ => none,
    fallback_authors := fun _ => [] }

/-- A reference without DOI, for exercising merge preservation of the DOI
invariant. -/
def c9refa : Citation := { id := "a", raw_text := "Alpha" }

/-- A reference with a DOI and its derived URL, for exercising merge
preservation of the DOI invariant. -/
def c9refb : Citation :=
  { id := "b", raw_text := "Beta", doi := some "10.1234/xyz",
    doi_url := some "https://doi.org/10.1234/xyz" }

/-! ## Supporting lemmas -/

/-- Dash normalisation acts pointwise. -/
theorem normalize_dashes_map (s : List Char) :
    normalize_dashes s = s.map fun c => if c ∈ dashChars then '-' else c := by
  simp only [normalize_dashes, dashChars, List.foldl_cons, List.foldl_nil, pyReplaceChar,
    List.map_map]
  refine List.map_congr_left fun c _ => ?_
  simp only [Function.comp_apply, List.mem_cons, List.not_mem_nil, or_false]
  by_cases h1 : c = Char.ofNat 0x2010 <;> by_cases h2 : c = Char.ofNat 0x2011 <;>
    by_cases h3 : c = Char.ofNat 0x2012 <;> by_cases h4 : c = Char.ofNat 0x2013 <;>
    by_cases h5 : c = Char.ofNat 0x2014 <;>
    simp_all

/-- Apostrophe normalisation acts pointwise. -/
theorem normalize_apostrophes_map (s : List Char) :
    normalize_apostrophes s = s.map fun c => if c ∈ aposChars then aposC else c := by
  simp only [normalize_apostrophes, aposChars, List.foldl_cons, List.foldl_nil, pyReplaceChar,
    List.map_map]
  refine List.map_congr_left fun c _ => ?_
  simp only [Function.comp_apply, List.mem_cons, List.not_mem_nil, or_false]
  by_cases h1 : c = Char.ofNat 0x2019 <;> by_cases h2 : c = Char.ofNat 0x02BC <;>
    simp_all

/-- The full normaliser acts pointwise via `normChar`. -/
theorem normalize_for_matching_map (s : List Char) : normalize_for_matching s = s.map normChar := by
  rw [normalize_for_matching, normalize_dashes_map, normalize_apostrophes_map, List.map_map]
  refine List.map_congr_left fun c _ => ?_
  simp only [Function.comp_apply, normChar]
  by_cases hd : c ∈ dashChars
  · have h1 : '-' ∉ aposChars := by decide
    simp [hd, h1]
  · by_cases ha : c ∈ aposChars
    · simp [hd, ha]
    · simp [hd, ha]

/-- The pointwise normaliser is idempotent. -/
theorem normChar_idem (c : Char) : normChar (normChar c) = normChar c := by
  have hda : '-' ∉ dashChars := by decide
  have haa : '-' ∉ aposChars := by decide
  have hpa : aposC ∉ dashChars := by decide
  have hpb : aposC ∉ aposChars := by decide
  unfold normChar
  by_cases hd : c ∈ dashChars
  · simp [hd, hda, haa]
  · by_cases ha : c ∈ aposChars
    · simp [hd, ha, hpa, hpb]
    · simp [hd, ha]

/-- Digits are not Python whitespace. -/
theorem isPyWs_false_of_digit (c : Char) (h : c.isDigit = true) : isPyWs c = false := by
  cases hw : isPyWs c
  · rfl
  · exfalso
    have hmem : c ∈ pyWs := List.mem_of_elem_eq_true hw
    fin_cases hmem <;> simp_all

/-- `lstrip` is the identity on whitespace-free strings. -/
theorem pyLstrip_of_no_ws (s : List Char) (h : ∀ c ∈ s, isPyWs c = false) : pyLstrip s = s := by
  cases s with
  | nil => rfl
  | cons c rest => simp [pyLstrip, h c (by simp)]

/-- `strip` is the identity on whitespace-free strings. -/
theorem pyStrip_of_no_ws (s : List Char) (h : ∀ c ∈ s, isPyWs c = false) : pyStrip s = s := by
  unfold pyStrip pyRstrip
  rw [pyLstrip_of_no_ws s h,
    pyLstrip_of_no_ws s.reverse (fun c hc => h c (List.mem_reverse.mp hc)),
    List.reverse_reverse]

/-- Splitting on an absent separator yields the whole string. -/
theorem pySplitOn_no_sep (sep : Char) (s : List Char) (h : sep ∉ s) : pySplitOn sep s = [s] := by
  induction s with
  | nil => rfl
  | cons c rest ih =>
    have hc : ¬ (c = sep) := fun e => h (by simp [e])
    have hr : sep ∉ rest := fun m => h (by simp [m])
    simp [pySplitOn, hc, ih hr]

/-- Splitting at a single separator occurrence yields the two sides. -/
theorem pySplitOn_append_sep (sep : Char) (s t : List Char) (hs : sep ∉ s) (ht : sep ∉ t) :
    pySplitOn sep (s ++ sep :: t) = [s, t] := by
  induction s with
  | nil => simp [pySplitOn, pySplitOn_no_sep sep t ht]
  | cons c rest ih =>
    have hc : ¬ (c = sep) := fun e => hs (by simp [e])
    have hr : sep ∉ rest := fun m => hs (by simp [m])
    simp [pySplitOn, hc, ih hr]

/-- The comma split of `_parse_numeric_refs` leaves a comma-free string
whole. -/
theorem reSplitCommaWs_no_comma (s : List Char) (h : (',' : Char) ∉ s) :
    reSplitCommaWs s = [s] := by
  unfold reSplitCommaWs
  rw [pySplitOn_no_sep ',' s h]
  simp [List.mapIdx_cons]

/-- A character that is not a digit does not occur in an all-digit string. -/
theorem not_mem_of_digits (s : List Char) (hs : s.all Char.isDigit = true) (c : Char)
    (hc : c.isDigit = false) : c ∉ s := fun m => by
  have := (List.all_eq_true.mp hs) c m
  simp_all

/-- Python `int` on a non-empty all-digit string. -/
theorem pyInt_digits (s : List Char) (h1 : s ≠ []) (h2 : s.all Char.isDigit = true) :
    pyInt s = some (digitsVal s) := by
  unfold pyInt
  rw [pyStrip_of_no_ws s (fun c hc => isPyWs_false_of_digit c ((List.all_eq_true.mp h2) c hc))]
  simp [h1, h2]

/-- A year found by `findYearAux` is a four-digit value starting `19` or
`20`, hence nonzero. -/
theorem findYearAux_ne_zero (s : List Char) :
    ∀ (prev : Option Char) (v : Int), findYearAux prev s = some v → v ≠ 0 := by
  induction s with
  | nil => intro prev v h; simp [findYearAux] at h
  | cons c1 tail ih =>
    intro prev v h
    rcases tail with _ | ⟨c2, tail2⟩
    · simp [findYearAux] at h
    rcases tail2 with _ | ⟨c3, tail3⟩
    · simp [findYearAux] at h
    rcases tail3 with _ | ⟨c4, rest⟩
    · simp [findYearAux] at h
    · rw [findYearAux] at h
      split_ifs at h with hcond
      · simp only [Option.some.injEq] at h
        subst h
        simp only [Bool.and_eq_true, Bool.or_eq_true, decide_eq_true_eq] at hcond
        obtain ⟨⟨⟨⟨-, hdig⟩, -⟩, -⟩, -⟩ := hcond
        have h1 : ('1' : Char).toNat = 49 := rfl
        have h9 : ('9' : Char).toNat = 57 := rfl
        have h2 : ('2' : Char).toNat = 50 := rfl
        have h0 : ('0' : Char).toNat = 48 := rfl
        have hge : 1000 ≤ digitsVal [c1, c2, c3, c4] := by
          simp only [digitsVal, List.foldl_cons, List.foldl_nil]
          rcases hdig with ⟨e1, e2⟩ | ⟨e1, e2⟩
          · rw [e1, e2, h1, h9]; omega
          · rw [e1, e2, h2, h0]; omega
        intro hv
        omega
      · exact ih _ _ h

/-- Head characterisation of association-list lookup. -/
theorem alGet_cons {κ α : Type} [DecidableEq κ] (p : κ × α) (m : List (κ × α)) (k : κ) :
    alGet (p :: m) k = if p.1 = k then some p.2 else alGet m k := by
  by_cases h : p.1 = k <;> simp [alGet, List.find?_cons, h]

/-- Lookup after update at the same key. -/
theorem alGet_alSet_self {κ α : Type} [DecidableEq κ] (m : List (κ × α)) (k : κ) (v : α) :
    alGet (alSet m k v) k = some v := by
  unfold alSet
  split_ifs with h
  · induction m with
    | nil => simp at h
    | cons p rest ih =>
      rw [List.map_cons]
      by_cases hp : p.1 = k
      · rw [if_pos hp, alGet_cons]
        simp
      · rw [if_neg hp, alGet_cons, if_neg hp]
        apply ih
        rcases List.any_eq_true.mp h with ⟨q, hq, hdec⟩
        rcases List.mem_cons.mp hq with rfl | hq2
        · exact absurd (of_decide_eq_true hdec) hp
        · exact List.any_eq_true.mpr ⟨q, hq2, hdec⟩
  · induction m with
    | nil =>
      rw [List.nil_append, alGet_cons]
      simp
    | cons p rest ih =>
      rw [List.cons_append, alGet_cons]
      have hp : ¬ (p.1 = k) := fun e =>
        h (List.any_eq_true.mpr ⟨p, by simp, decide_eq_true e⟩)
      rw [if_neg hp]
      apply ih
      intro hr
      rcases List.any_eq_true.mp hr with ⟨q, hq, hdec⟩
      exact h (List.any_eq_true.mpr ⟨q, by simp [hq], hdec⟩)

/-- Lookup after update at a different key. -/
theorem alGet_alSet_ne {κ α : Type} [DecidableEq κ] (m : List (κ × α)) (k : κ) (v : α)
    (k' : κ) (hne : k' ≠ k) : alGet (alSet m k v) k' = alGet m k' := by
  unfold alSet
  split_ifs with h
  · clear h
    induction m with
    | nil => rfl
    | cons p rest ih =>
      rw [List.map_cons]
      by_cases hp : p.1 = k
      · rw [if_pos hp, alGet_cons, alGet_cons]
        have h1 : ¬ ((k, v).1 = k') := fun e => hne e.symm
        have h2 : ¬ (p.1 = k') := fun e => hne (by rw [← e, hp])
        rw [if_neg h1, if_neg h2, ih]
      · rw [if_neg hp, alGet_cons, alGet_cons]
        by_cases hpk : p.1 = k'
        · rw [if_pos hpk, if_pos hpk]
        · rw [if_neg hpk, if_neg hpk, ih]
  · clear h
    induction m with
    | nil =>
      rw [List.nil_append, alGet_cons]
      have h1 : ¬ ((k, v).1 = k') := fun e => hne e.symm
      rw [if_neg h1]
    | cons p rest ih =>
      rw [List.cons_append, alGet_cons, alGet_cons]
      by_cases hpk : p.1 = k'
      · rw [if_pos hpk, if_pos hpk]
      · rw [if_neg hpk, if_neg hpk, ih]

/-- A present key stays present after any update. -/
theorem alGet_alSet_isSome {κ α : Type} [DecidableEq κ] (m : List (κ × α)) (k : κ) (v : α)
    (k' : κ) (h : (alGet m k').isSome) : (alGet (alSet m k v) k').isSome := by
  by_cases he : k' = k
  · subst he
    rw [alGet_alSet_self]
    rfl
  · rw [alGet_alSet_ne m k v k' he]
    exact h

/-- The outcome of `_citations_match` depends only on the citation's `text`,
`citation_type` and `reference_ids` fields. -/
theorem citations_match_eq_of (c1 c2 : InTextCitation) (h1 : c1.text = c2.text)
    (h2 : c1.citation_type = c2.citation_type) (h3 : c1.reference_ids = c2.reference_ids)
    (ref : Citation) (tol : Int) : citations_match c1 ref tol = citations_match c2 ref tol := by
  unfold citations_match
  rw [h1, h2, h3]

/-- Consequently so does the per-citation match-list computation. -/
theorem citation_match_lists_eq_of (references : List Citation) (c1 c2 : InTextCitation)
    (h1 : c1.text = c2.text) (h2 : c1.citation_type = c2.citation_type)
    (h3 : c1.reference_ids = c2.reference_ids) :
    citation_match_lists references c1 = citation_match_lists references c2 := by
  unfold citation_match_lists
  have hstep : citation_match_step c1 = citation_match_step c2 := by
    funext acc ref
    unfold citation_match_step
    rw [citations_match_eq_of c1 c2 h1 h2 h3 ref 1]
  rw [hstep]

/-- One step of the reference loop preserves: every matched id is a
reference id, and every fuzzy detail's id is among the matched ids. -/
theorem citation_match_step_inv (c : InTextCitation) (world : List Citation)
    (ref : Citation) (href : ref ∈ world) (acc : List String × List FuzzyMatchInfo)
    (h1 : ∀ id ∈ acc.1, ∃ r ∈ world, r.id = id)
    (h2 : ∀ info ∈ acc.2, info.ref_id ∈ acc.1) :
    (∀ id ∈ (citation_match_step c acc ref).1, ∃ r ∈ world, r.id = id) ∧
    (∀ info ∈ (citation_match_step c acc ref).2,
      info.ref_id ∈ (citation_match_step c acc ref).1) := by
  simp only [citation_match_step]
  split_ifs with hE hF
  · refine ⟨?_, ?_⟩
    · intro id hid
      rcases List.mem_append.mp hid with h | h
      · exact h1 id h
      · rcases List.mem_singleton.mp h with rfl
        exact ⟨ref, href, rfl⟩
    · intro info hinfo
      exact List.mem_append_left _ (h2 info hinfo)
  · refine ⟨?_, ?_⟩
    · intro id hid
      rcases List.mem_append.mp hid with h | h
      · exact h1 id h
      · rcases List.mem_singleton.mp h with rfl
        exact ⟨ref, href, rfl⟩
    · intro info hinfo
      rcases List.mem_append.mp hinfo with h | h
      · exact List.mem_append_left _ (h2 info h)
      · rcases List.mem_singleton.mp h with rfl
        exact List.mem_append_right _ (List.mem_singleton.mpr rfl)
  · exact ⟨h1, h2⟩

/-- Fold form of `citation_match_step_inv`. -/
theorem citation_match_fold_inv (c : InTextCitation) (world : List Citation) :
    ∀ (refs : List Citation) (acc : List String × List FuzzyMatchInfo),
      (∀ r ∈ refs, r ∈ world) →
      (∀ id ∈ acc.1, ∃ r ∈ world, r.id = id) →
      (∀ info ∈ acc.2, info.ref_id ∈ acc.1) →
      (∀ id ∈ (refs.foldl (citation_match_step c) acc).1, ∃ r ∈ world, r.id = id) ∧
      (∀ info ∈ (refs.foldl (citation_match_step c) acc).2,
        info.ref_id ∈ (refs.foldl (citation_match_step c) acc).1) := by
  intro refs
  induction refs with
  | nil => intro acc _ h1 h2; exact ⟨h1, h2⟩
  | cons ref rest ih =>
    intro acc hsub h1 h2
    rw [List.foldl_cons]
    have hstep := citation_match_step_inv c world ref (hsub ref (by simp)) acc h1 h2
    exact ih _ (fun r hr => hsub r (by simp [hr])) hstep.1 hstep.2

/-- Specification of `citation_match_lists`: matched ids come from the
reference list, and fuzzy ids are matched ids. -/
theorem citation_match_lists_inv (references : List Citation) (c : InTextCitation) :
    (∀ id ∈ (citation_match_lists references c).1, ∃ r ∈ references, r.id = id) ∧
    (∀ info ∈ (citation_match_lists references c).2,
      info.ref_id ∈ (citation_match_lists references c).1) := by
  unfold citation_match_lists
  exact citation_match_fold_inv c references references ([], []) (fun r hr => hr)
    (by intro id hid; simp at hid) (by intro info hinfo; simp at hinfo)

/-- Fold invariant of the citation loop of `match_citations_to_references`. -/
theorem mcr_fold_inv (references : List Citation) (world : List InTextCitation) :
    ∀ (rest : List InTextCitation) (acc : MatchResult),
      (∀ c ∈ rest, c ∈ world) →
      (∀ t, (alGet acc.fuzzy_matches t).isSome → (alGet acc.matches' t).isSome) →
      (∀ t L, alGet acc.fuzzy_matches t = some L →
        ∃ c, c ∈ world ∧ c.text = t ∧ L = (citation_match_lists references c).2 ∧ L ≠ []) →
      (∀ t M, alGet acc.matches' t = some M →
        ∃ c, c ∈ world ∧ c.text = t ∧ M = (citation_match_lists references c).1) →
      (∀ t, (alGet (List.foldl (mcr_step references) acc rest).fuzzy_matches t).isSome →
        (alGet (List.foldl (mcr_step references) acc rest).matches' t).isSome) ∧
      (∀ t L, alGet (List.foldl (mcr_step references) acc rest).fuzzy_matches t = some L →
        ∃ c, c ∈ world ∧ c.text = t ∧ L = (citation_match_lists references c).2 ∧ L ≠ []) ∧
      (∀ t M, alGet (List.foldl (mcr_step references) acc rest).matches' t = some M →
        ∃ c, c ∈ world ∧ c.text = t ∧ M = (citation_match_lists references c).1) ∧
      (∀ t, (alGet acc.matches' t).isSome →
        (alGet (List.foldl (mcr_step references) acc rest).matches' t).isSome) ∧
      (∀ c ∈ rest, (alGet (List.foldl (mcr_step references) acc rest).matches' c.text).isSome) := by
  intro rest
  induction rest with
  | nil =>
    intro acc _ ha hb hc
    refine ⟨ha, hb, hc, fun t h => h, ?_⟩
    intro c hc'
    exact absurd hc' (List.not_mem_nil c)
  | cons c rest ih =>
    intro acc hsub ha hb hc
    rw [List.foldl_cons]
    set lists := citation_match_lists references c with hlists
    have hstep_m : (mcr_step references acc c).matches' = alSet acc.matches' c.text lists.1 :=
      rfl
    have hstep_f : (mcr_step references acc c).fuzzy_matches =
        (if lists.2 ≠ [] then alSet acc.fuzzy_matches c.text lists.2
         else acc.fuzzy_matches) := rfl
    have ha' : ∀ t, (alGet (mcr_step references acc c).fuzzy_matches t).isSome →
        (alGet (mcr_step references acc c).matches' t).isSome := by
      intro t hf
      rw [hstep_m]
      rw [hstep_f] at hf
      by_cases hL : lists.2 = []
      · rw [if_neg (by simp [hL])] at hf
        exact alGet_alSet_isSome _ _ _ _ (ha t hf)
      · rw [if_pos hL] at hf
        by_cases ht : t = c.text
        · subst ht
          rw [alGet_alSet_self]
          rfl
        · rw [alGet_alSet_ne _ _ _ _ ht] at hf
          exact alGet_alSet_isSome _ _ _ _ (ha t hf)
    have hb' : ∀ t L, alGet (mcr_step references acc c).fuzzy_matches t = some L →
        ∃ c', c' ∈ world ∧ c'.text = t ∧ L = (citation_match_lists references c').2 ∧ L ≠ [] := by
      intro t L hf
      rw [hstep_f] at hf
      by_cases hL : lists.2 = []
      · rw [if_neg (by simp [hL])] at hf
        exact hb t L hf
      · rw [if_pos hL] at hf
        by_cases ht : t = c.text
        · subst ht
          rw [alGet_alSet_self] at hf
          obtain rfl := (Option.some.injEq _ _).mp hf
          exact ⟨c, hsub c (by simp), rfl, by rw [hlists], hL⟩
        · rw [alGet_alSet_ne _ _ _ _ ht] at hf
          exact hb t L hf
    have hc' : ∀ t M, alGet (mcr_step references acc c).matches' t = some M →
        ∃ c', c' ∈ world ∧ c'.text = t ∧ M = (citation_match_lists references c').1 := by
      intro t M hm
      rw [hstep_m] at hm
      by_cases ht : t = c.text
      · subst ht
        rw [alGet_alSet_self] at hm
        obtain rfl := (Option.some.injEq _ _).mp hm
        exact ⟨c, hsub c (by simp), rfl, by rw [hlists]⟩
      · rw [alGet_alSet_ne _ _ _ _ ht] at hm
        exact hc t M hm
    have hres := ih (mcr_step references acc c)
      (fun x hx => hsub x (by simp [hx])) ha' hb' hc'
    refine ⟨hres.1, hres.2.1, hres.2.2.1, ?_, ?_⟩
    · intro t hsome
      apply hres.2.2.2.1
      rw [hstep_m]
      exact alGet_alSet_isSome _ _ _ _ hsome
    · intro x hx
      rcases List.mem_cons.mp hx with rfl | hx'
      · apply hres.2.2.2.1
        rw [hstep_m, alGet_alSet_self]
        rfl
      · exact hres.2.2.2.2 x hx'

/-! ## Claim theorems -/

/-- A successful `matchDoiCore` always starts with the character `1`. -/
lemma matchDoiCore_shape {s g : List Char} (h : matchDoiCore s = some g) :
    ∃ t, g = '1' :: t := by
  unfold matchDoiCore at h
  split at h
  · dsimp only [] at h
    split at h
    · split at h
      · split at h
        · simp only [Option.some.injEq] at h
          exact ⟨_, h.symm⟩
        · exact Option.noConfusion h
      · exact Option.noConfusion h
    · exact Option.noConfusion h
  · exact Option.noConfusion h

/-- A successful `extract_doi_at` always starts with the character `1`. -/
lemma extract_doi_at_shape {s g : List Char} (h : extract_doi_at s = some g) :
    ∃ t, g = '1' :: t := by
  unfold extract_doi_at at h
  obtain ⟨x, -, hfx⟩ := List.exists_of_findSome?_eq_some h
  exact matchDoiCore_shape hfx

/-- A successful `extract_doi_scan` always starts with the character `1`. -/
lemma extract_doi_scan_shape : ∀ {s g : List Char},
    extract_doi_scan s = some g → ∃ t, g = '1' :: t := by
  intro s
  induction s with
  | nil => intro g h; exact Option.noConfusion h
  | cons c rest ih =>
    intro g h
    rw [extract_doi_scan] at h
    split at h
    · rename_i g0 hat
      cases h
      exact extract_doi_at_shape hat
    · exact ih h

/-- The helper of `pyRstripSet` keeps a list that contains a character
outside the strip set non-empty. -/
lemma pyRstripSet_go_ne_nil (set : List Char) :
    ∀ l : List Char, (∃ c ∈ l, set.contains c = false) → pyRstripSet.go set l ≠ [] := by
  intro l
  induction l with
  | nil => rintro ⟨c, hc, -⟩; cases hc
  | cons c rest ih =>
    rintro ⟨x, hx, hxf⟩
    unfold pyRstripSet.go
    split
    · rename_i hct
      apply ih
      rcases List.mem_cons.mp hx with rfl | hx2
      · rw [hct] at hxf; cases hxf
      · exact ⟨x, hx2, hxf⟩
    · simp

/-- `pyRstripSet` keeps a list whose head is outside the strip set
non-empty. -/
lemma pyRstripSet_ne_nil {set : List Char} {c : Char} {t : List Char}
    (hc : set.contains c = false) : pyRstripSet set (c :: t) ≠ [] := by
  unfold pyRstripSet
  intro h
  exact pyRstripSet_go_ne_nil set ((c :: t).reverse) ⟨c, by simp, hc⟩
    (List.reverse_eq_nil_iff.mp h)

/-- `_extract_doi` never returns the empty string: a match starts with `1`,
which the trailing-punctuation strip cannot remove. -/
lemma extract_doi_ne_empty {text : List Char} {s : String}
    (h : extract_doi text = some s) : s ≠ "" := by
  unfold extract_doi at h
  split at h
  · rename_i g hg
    obtain ⟨t, rfl⟩ := extract_doi_scan_shape hg
    simp only [Option.some.injEq] at h
    subst h
    intro he
    exact pyRstripSet_ne_nil (by decide) (congrArg String.data he)
  · exact Option.noConfusion h

/-- Every citation built by `_parse_single_reference` satisfies the DOI-link
invariant: each of the five style branches stores the `doi`/`doi_url` pair
computed before the dispatch. -/
lemma parse_single_reference_doiInv (G : RefGrammars) (entry0 : List Char) (idx : Nat) :
    doiInv (parse_single_reference G entry0 idx) := by
  unfold doiInv parse_single_reference
  cases hdoi : extract_doi (pyStrip entry0) with
  | none =>
    dsimp only []
    split
    · left; exact ⟨hdoi, by rw [hdoi]; rfl⟩
    · split
      · left; exact ⟨hdoi, by rw [hdoi]; rfl⟩
      · split
        · left; exact ⟨hdoi, by rw [hdoi]; rfl⟩
        · split
          · left; exact ⟨hdoi, by rw [hdoi]; rfl⟩
          · left; exact ⟨hdoi, by rw [hdoi]; rfl⟩
  | some d =>
    have hd : d ≠ "" := extract_doi_ne_empty hdoi
    have hurl : (if truthyStrS (extract_doi (pyStrip entry0)) then
        (extract_doi (pyStrip entry0)).map (fun d => "https://doi.org/" ++ d) else none) =
        some ("https://doi.org/" ++ d) := by
      rw [hdoi]
      simp [truthyStrS, String.isEmpty_iff, hd]
    dsimp only []
    split
    · right; exact ⟨d, hdoi, hurl⟩
    · split
      · right; exact ⟨d, hdoi, hurl⟩
      · split
        · right; exact ⟨d, hdoi, hurl⟩
        · split
          · right; exact ⟨d, hdoi, hurl⟩
          · right; exact ⟨d, hdoi, hurl⟩

/-- Membership in a stable insertion. -/
lemma mem_insertStable {α : Type} (le : α → α → Bool) (x a : α) :
    ∀ l, a ∈ insertStable le x l ↔ a = x ∨ a ∈ l := by
  intro l
  induction l with
  | nil => simp [insertStable]
  | cons y ys ih =>
    rw [insertStable]
    split
    · simp [List.mem_cons]
    · simp only [List.mem_cons, ih]
      tauto

/-- The stable sort does not change the members of a list. -/
lemma mem_sortStable {α : Type} (le : α → α → Bool) (a : α) :
    ∀ l, a ∈ sortStable le l ↔ a ∈ l := by
  intro l
  induction l with
  | nil => simp [sortStable]
  | cons x xs ih =>
    rw [sortStable, mem_insertStable]
    simp [ih]

/-- One merge step preserves the DOI-link invariant: the step copies `doi`
and `doi_url` together or leaves both unchanged. -/
lemma merge_fill_doiInv {best ref : Citation} (hb : doiInv best) (hr : doiInv ref) :
    doiInv (merge_fill best ref) := by
  have hdoi : (merge_fill best ref).doi =
      (if ¬ truthyStrS best.doi ∧ truthyStrS ref.doi then ref.doi else best.doi) := by
    simp [merge_fill, apply_ite Citation.doi]
  have hurl : (merge_fill best ref).doi_url =
      (if ¬ truthyStrS best.doi ∧ truthyStrS ref.doi then ref.doi_url else best.doi_url) := by
    simp [merge_fill, apply_ite Citation.doi_url]
  by_cases hc : ¬ truthyStrS best.doi ∧ truthyStrS ref.doi
  · rw [if_pos hc] at hdoi
    rw [if_pos hc] at hurl
    rcases hr with ⟨h1, h2⟩ | ⟨d, h1, h2⟩
    · exact Or.inl ⟨hdoi.trans h1, hurl.trans h2⟩
    · exact Or.inr ⟨d, hdoi.trans h1, hurl.trans h2⟩
  · rw [if_neg hc] at hdoi
    rw [if_neg hc] at hurl
    rcases hb with ⟨h1, h2⟩ | ⟨d, h1, h2⟩
    · exact Or.inl ⟨hdoi.trans h1, hurl.trans h2⟩
    · exact Or.inr ⟨d, hdoi.trans h1, hurl.trans h2⟩

/-- The merge fold preserves the DOI-link invariant. -/
lemma merge_fold_doiInv : ∀ (rest : List Citation) (best : Citation), doiInv best →
    (∀ r ∈ rest, doiInv r) → doiInv (rest.foldl merge_fill best) := by
  intro rest
  induction rest with
  | nil => intro best hb _; simpa using hb
  | cons r rs ih =>
    intro best hb hr
    rw [List.foldl_cons]
    exact ih _ (merge_fill_doiInv hb (hr r (by simp))) fun x hx => hr x (by simp [hx])

/-- `merge_duplicates` preserves the DOI-link invariant. -/
lemma merge_duplicates_doiInv {refs : List Citation} {merged : Citation}
    (hall : ∀ r ∈ refs, doiInv r) (h : merge_duplicates refs = some merged) :
    doiInv merged := by
  rcases refs with - | ⟨r1, rs⟩
  · exact Option.noConfusion h
  rcases rs with - | ⟨r2, rest⟩
  · simp only [merge_duplicates, Option.some.injEq] at h
    subst h
    exact hall _ (by simp)
  · have hu : merge_duplicates (r1 :: r2 :: rest) =
        (match sortStable
            (fun a b => scoreTupleLe (completeness_score b) (completeness_score a))
            (r1 :: r2 :: rest) with
         | [] => none
         | best :: rest2 => some (rest2.foldl merge_fill best)) := rfl
    rw [hu] at h
    cases hs : sortStable
        (fun a b => scoreTupleLe (completeness_score b) (completeness_score a))
        (r1 :: r2 :: rest) with
    | nil => rw [hs] at h; exact Option.noConfusion h
    | cons best rest2 =>
      rw [hs] at h
      simp only [Option.some.injEq] at h
      subst h
      have hmem : ∀ x ∈ best :: rest2, doiInv x := by
        intro x hx
        apply hall
        rw [← mem_sortStable (fun a b => scoreTupleLe (completeness_score b) (completeness_score a))
          x (r1 :: r2 :: rest), hs]
        exact hx
      exact merge_fold_doiInv rest2 best (hmem best (by simp)) fun x hx =>
        hmem x (by simp [hx])


/-- Claim C6: `normalize` (`_normalize_for_matching`) is idempotent, and maps
every occurrence of each character in `{U+2010..U+2014}` to ASCII `-` and
every occurrence of each character in `{U+2019, U+02BC}` to the ASCII
apostrophe, leaving all other characters unchanged. -/
theorem claim_C6 (s : List Char) :
    normalize_for_matching (normalize_for_matching s) = normalize_for_matching s ∧
    normalize_for_matching s =
      s.map fun c =>
        if c ∈ dashChars then '-'
        else if c ∈ aposChars then aposC
        else c := by
  constructor
  · rw [normalize_for_matching_map, normalize_for_matching_map, List.map_map]
    exact List.map_congr_left fun c _ => normChar_idem c
  · rw [normalize_for_matching_map]
    rfl

/-- Claim C3: for normalised author names that differ but stand in a
substring relation, `_fuzzy_author_match` returns `FUZZY` when the length
difference is at most 2 and `EXACT` otherwise; in particular
`author_match("wang", "wangsari")` (length difference 4) is `EXACT`. -/
theorem claim_C3 :
    (∀ a b : List Char,
        normalize_for_matching a = a → normalize_for_matching b = b →
        a ≠ b → (pyInSub a b || pyInSub b a) = true →
        fuzzy_author_match a b =
          (if ((a.length : Int) - (b.length : Int)).natAbs ≤ 2 then MatchType.FUZZY
           else MatchType.EXACT)) ∧
    fuzzy_author_match "wang".data "wangsari".data = MatchType.EXACT := by
  constructor
  · intro a b ha hb hne hsub
    simp only [fuzzy_author_match, ha, hb]
    simp [hne, hsub]
  · decide

/-- Witness for C3 at the concrete pair `("park", "parker")`: contained with
length difference 2, hence `FUZZY`. -/
theorem claim_C3_witness : fuzzy_author_match "park".data "parker".data = MatchType.FUZZY := by
  have h := claim_C3.1 "park".data "parker".data (by decide) (by decide) (by decide) (by decide)
  rw [h]
  decide

/-- Claim C4: for normalised author names that are neither equal nor in a
substring relation, `_fuzzy_author_match` returns `FUZZY` exactly when the
Levenshtein distance is within the length-dependent threshold (1 for
citation names of length at most 6, else 2) and `NONE` otherwise; and
`author_match("smith","smith") = EXACT`, `author_match("li","zhang") = NONE`. -/
theorem claim_C4 :
    (∀ a b : List Char,
        normalize_for_matching a = a → normalize_for_matching b = b →
        a ≠ b → pyInSub a b = false → pyInSub b a = false →
        fuzzy_author_match a b =
          (if levenshtein_distance a b ≤ (if a.length ≤ 6 then 1 else 2) then MatchType.FUZZY
           else MatchType.NONE)) ∧
    fuzzy_author_match "smith".data "smith".data = MatchType.EXACT ∧
    fuzzy_author_match "li".data "zhang".data = MatchType.NONE := by
  refine ⟨?_, by decide, by decide⟩
  intro a b ha hb hne hab hba
  simp only [fuzzy_author_match, ha, hb, hne, hab, hba]
  simp [hne]

/-- Witness for C4 at the concrete pair `("smith", "smyth")`: not in a
substring relation, distance 1 on a short name, hence `FUZZY`. -/
theorem claim_C4_witness : fuzzy_author_match "smith".data "smyth".data = MatchType.FUZZY := by
  have h := claim_C4.1 "smith".data "smyth".data (by decide) (by decide) (by decide) (by decide)
    (by decide)
  rw [h]
  decide

/-- Claim C7: every semicolon-separated multi-citation parenthetical group is
split into one `InTextCitation` per inner citation, all sharing the group
match's `start_pos`, `end_pos` and context; in particular detecting
`"(Smith & Jones, 2020; Brown, 2019)"` yields exactly two entries with
identical spans. -/
theorem claim_C7 :
    (∀ (text : List Char) (cc : Nat) (m : REMatch),
        (∀ c ∈ split_author_year_group text cc m,
          c.start_pos = m.start ∧ c.end_pos = m.stop ∧
            c.context = extract_context text m.start m.stop cc) ∧
        (split_author_year_group text cc m).length =
          (reFinditer reIndividualPat (m.group 1)).length) ∧
    ((detect_citations "(Smith & Jones, 2020; Brown, 2019)".data 150).in_text_citations.length
        = 2 ∧
      ∀ c ∈ (detect_citations "(Smith & Jones, 2020; Brown, 2019)".data 150).in_text_citations,
        c.start_pos = 0 ∧ c.end_pos = 34) := by
  constructor
  · intro text cc m
    constructor
    · intro c hc
      simp only [split_author_year_group, List.mem_map] at hc
      obtain ⟨im, _, rfl⟩ := hc
      exact ⟨rfl, rfl, rfl⟩
    · simp [split_author_year_group]
  · decide

/-- Witness for C7: the group-splitting lemma applied to the actual
author-year match of `"(Smith & Jones, 2020; Brown, 2019)"` and its first
split citation. -/
theorem claim_C7_witness :
    (⟨"(Smith & Jones, 2020)", 0, 34, CitationType.author_year, ["smith_2020"],
        "(Smith & Jones, 2020; Brown, 2019)"⟩ : InTextCitation).start_pos = 0 ∧
    (⟨"(Smith & Jones, 2020)", 0, 34, CitationType.author_year, ["smith_2020"],
        "(Smith & Jones, 2020; Brown, 2019)"⟩ : InTextCitation).end_pos = 34 := by
  have h := (claim_C7.1 "(Smith & Jones, 2020; Brown, 2019)".data 150
      ⟨0, 34, "(Smith & Jones, 2020; Brown, 2019)".data,
        [(1, "Smith & Jones, 2020; Brown, 2019".data)]⟩).1
      (⟨"(Smith & Jones, 2020)", 0, 34, CitationType.author_year, ["smith_2020"],
        "(Smith & Jones, 2020; Brown, 2019)"⟩ : InTextCitation)
      (by decide)
  exact ⟨h.1, h.2.1⟩

/-- Claim C8: detecting `"[1-3]"` yields exactly one numeric `InTextCitation`
with `reference_ids = ["1","2","3"]`, and in general `_parse_numeric_refs`
expands a digit-string range `n-m` (with `n ≤ m`) to every integer from `n`
to `m` inclusive. -/
theorem claim_C8 :
    ((detect_citations "[1-3]".data 150).in_text_citations =
        [{ text := "[1-3]", start_pos := 0, end_pos := 5,
           citation_type := CitationType.numeric,
           reference_ids := ["1", "2", "3"], context := "[1-3]" }] ∧
      (detect_citations "[1-3]".data 150).detected_type = CitationType.numeric) ∧
    ∀ s t : List Char, s ≠ [] → t ≠ [] →
      s.all Char.isDigit = true → t.all Char.isDigit = true →
      digitsVal s ≤ digitsVal t →
      parse_numeric_refs (s ++ '-' :: t) =
        (List.range' (digitsVal s) (digitsVal t + 1 - digitsVal s)).map Nat.repr := by
  constructor
  · exact ⟨by decide, by decide⟩
  · intro s t hs ht hds hdt _
    unfold parse_numeric_refs
    have hcs : (',' : Char) ∉ s := not_mem_of_digits s hds ',' (by decide)
    have hct : (',' : Char) ∉ t := not_mem_of_digits t hdt ',' (by decide)
    have hcomma : (',' : Char) ∉ s ++ '-' :: t := by
      simp only [List.mem_append, List.mem_cons]
      rintro (h | h | h)
      · exact hcs h
      · exact absurd h (by decide)
      · exact hct h
    rw [reSplitCommaWs_no_comma _ hcomma]
    simp only [List.foldl_cons, List.foldl_nil]
    have hmins : ('-' : Char) ∉ s := not_mem_of_digits s hds '-' (by decide)
    have hmint : ('-' : Char) ∉ t := not_mem_of_digits t hdt '-' (by decide)
    have hcontains : (s ++ '-' :: t).contains '-' = true :=
      List.elem_iff.mpr (by simp)
    rw [hcontains, pySplitOn_append_sep '-' s t hmins hmint]
    simp only [if_true]
    rw [pyInt_digits s hs hds, pyInt_digits t ht hdt]
    simp

/-- Witness for C8's range expansion at `s = "1"`, `t = "3"`. -/
theorem claim_C8_witness :
    parse_numeric_refs ("1".data ++ '-' :: "3".data) = ["1", "2", "3"] := by
  have h := claim_C8.2 "1".data "3".data (by decide) (by decide) (by decide) (by decide)
    (by decide)
  rw [h]
  rfl


set_option maxHeartbeats 1600000 in
/-- Claim C2: for author-year and inline citations, `_citations_match`
matches exactly when the first authors match (`NONE` is a hard reject), the
second authors are compatible for two-author citations against a reference
with at least two authors, and the years are within `year_tolerance` when
both present (an absent year never rejects); the match is `FUZZY` exactly
when some sub-check was fuzzy, the year sub-check being fuzzy exactly when
the years differ (within tolerance). -/
theorem claim_C2 (cit : InTextCitation) (ref : Citation) (tol : Int)
    (htyp : cit.citation_type = CitationType.author_year ∨
      cit.citation_type = CitationType.author_inline)
    (htol : 0 ≤ tol)
    (hry0 : ∀ y, ref.year = some y → y ≠ 0)
    (hca : extract_citation_authors cit.text.data ≠ [])
    (hrl : refLastNames ref ≠ []) :
    ((citations_match cit ref tol).match_type ≠ MatchType.NONE ↔
      (fuzzy_author_match ((extract_citation_authors cit.text.data).headD [])
          ((refLastNames ref).headD []) ≠ MatchType.NONE ∧
        ((extract_citation_authors cit.text.data).length = 2 ∧ 2 ≤ (refLastNames ref).length →
          fuzzy_author_match ((extract_citation_authors cit.text.data).getD 1 [])
            ((refLastNames ref).getD 1 []) ≠ MatchType.NONE) ∧
        (∀ y ry, findCitationYear cit.text.data = some y → ref.year = some ry →
          ((y - ry).natAbs : Int) ≤ tol))) ∧
    ((citations_match cit ref tol).match_type = MatchType.FUZZY ↔
      ((citations_match cit ref tol).match_type ≠ MatchType.NONE ∧
        (fuzzy_author_match ((extract_citation_authors cit.text.data).headD [])
            ((refLastNames ref).headD []) = MatchType.FUZZY ∨
          (((extract_citation_authors cit.text.data).length = 2 ∧
              2 ≤ (refLastNames ref).length) ∧
            fuzzy_author_match ((extract_citation_authors cit.text.data).getD 1 [])
              ((refLastNames ref).getD 1 []) = MatchType.FUZZY) ∨
          (∃ y ry, findCitationYear cit.text.data = some y ∧ ref.year = some ry ∧ y ≠ ry ∧
            ((y - ry).natAbs : Int) ≤ tol)))) := by
  have hnum : ¬ (cit.citation_type = CitationType.numeric) := by
    rcases htyp with h | h <;> simp [h]
  have hcy0 : ∀ y, findCitationYear cit.text.data = some y → y ≠ 0 :=
    fun y h => findYearAux_ne_zero _ _ _ h
  rcases hCA : extract_citation_authors cit.text.data with _ | ⟨cf, ctail⟩
  · exact absurd hCA hca
  rcases hRL : refLastNames ref with _ | ⟨rf, rtail⟩
  · exact absurd hRL hrl
  rw [citations_match]
  rw [if_neg hnum]
  simp only [hCA, hRL]
  simp only [List.headD_cons, List.getD_cons_succ, List.getD_cons_zero, List.length_cons]
  cases hFM : fuzzy_author_match cf rf
  case NONE => simp [hFM]
  all_goals rcases ctail with _ | ⟨cs, ctail2⟩
  all_goals try rcases ctail2 with _ | ⟨cd, ctail3⟩
  all_goals try rcases rtail with _ | ⟨rs, rtail2⟩
  all_goals try cases hSM : fuzzy_author_match cs rs
  all_goals rcases hCY : findCitationYear cit.text.data with _ | y <;>
    rcases hRY : ref.year with _ | ry
  all_goals try have hy : y ≠ 0 := hcy0 y hCY
  all_goals try have hryy : ry ≠ 0 := hry0 ry hRY
  all_goals clear hca hrl hcy0 hry0 htyp hnum hCA hRL hCY hRY
  all_goals clear cit ref
  all_goals simp_all [truthyInt]
  all_goals try (split_ifs <;> simp_all)
  all_goals omega

/-- Witness for C2: `"(Smith, 2020)"` against a 2021 reference by Smith with
tolerance 1 — first authors match exactly, the year is off by one, so the
match is `FUZZY`. -/
theorem claim_C2_witness :
    (citations_match
        ⟨"(Smith, 2020)", 0, 13, CitationType.author_year, [], ""⟩
        ⟨"r1", "Smith, J. (2021). A study.", ["Smith, J."], none, some 2021, none, none, none,
          none, none, none⟩ 1).match_type = MatchType.FUZZY := by
  have hfy : findCitationYear ("(Smith, 2020)".data) = some 2020 := by decide
  have h := claim_C2
    ⟨"(Smith, 2020)", 0, 13, CitationType.author_year, [], ""⟩
    ⟨"r1", "Smith, J. (2021). A study.", ["Smith, J."], none, some 2021, none, none, none,
      none, none, none⟩ 1
    (Or.inl rfl) (by decide)
    (by intro y hy; injection hy with h1; omega)
    (by decide) (by decide)
  have hyearOK : ∀ y ry,
      findCitationYear ("(Smith, 2020)" : String).data = some y →
      (some 2021 : Option Int) = some ry → (((y - ry).natAbs : Int) ≤ 1) := by
    intro y ry hy hry
    rw [hfy] at hy
    injection hy with hy1
    injection hry with hry1
    subst hy1
    subst hry1
    decide
  refine h.2.mpr ⟨h.1.mpr ⟨by decide, by decide, hyearOK⟩, Or.inr (Or.inr ?_)⟩
  exact ⟨2020, 2021, hfy, rfl, by decide, by decide⟩

/-- Counterexample to claim C10 as stated: two citations share the text
`"(Smith, 2020)"`; the first (author-year) fuzzy-matches reference `r1`, the
second (numeric with empty `reference_ids`) matches nothing and overwrites
`matches["(Smith, 2020)"]` with `[]`, while the stale fuzzy entry keeps
`ref_id = "r1"` — so a recorded `FuzzyMatchInfo.ref_id` does not appear in
`matches` for that text. -/
theorem claim_C10_counterexample :
    (∃ info ∈ (alGet (match_citations_to_references
        [⟨"(Smith, 2020)", 0, 13, CitationType.author_year, [], ""⟩,
         ⟨"(Smith, 2020)", 20, 33, CitationType.numeric, [], ""⟩]
        [⟨"r1", "Smith, J. (2021). A study.", ["Smith, J."], none, some 2021, none, none,
          none, none, none, none⟩]).fuzzy_matches "(Smith, 2020)").getD [],
      info.ref_id = "r1") ∧
    alGet (match_citations_to_references
        [⟨"(Smith, 2020)", 0, 13, CitationType.author_year, [], ""⟩,
         ⟨"(Smith, 2020)", 20, 33, CitationType.numeric, [], ""⟩]
        [⟨"r1", "Smith, J. (2021). A study.", ["Smith, J."], none, some 2021, none, none,
          none, none, none, none⟩]).matches' smithKey = some [] := by
  constructor
  · decide
  · decide

/-- Claim C10, amended: `match_citations_to_references` always gives
`matches` an entry for every input citation text, every `fuzzy_matches` key
is a `matches` key, and every id in a `matches` value is the id of an input
reference; the original claim's third part — every recorded
`FuzzyMatchInfo.ref_id` appears in `matches` for the same text — holds
provided input citations sharing a text agree on `citation_type` and
`reference_ids` (otherwise a later same-text citation can overwrite the
`matches` entry while the stale fuzzy entry survives). -/
theorem claim_C10 (in_text : List InTextCitation) (references : List Citation) :
    (∀ c ∈ in_text,
      (alGet (match_citations_to_references in_text references).matches' c.text).isSome) ∧
    (∀ t, (alGet (match_citations_to_references in_text references).fuzzy_matches t).isSome →
      (alGet (match_citations_to_references in_text references).matches' t).isSome) ∧
    (∀ t M id, alGet (match_citations_to_references in_text references).matches' t = some M →
      id ∈ M → ∃ ref ∈ references, ref.id = id) ∧
    ((∀ c1 ∈ in_text, ∀ c2 ∈ in_text, c1.text = c2.text →
        c1.citation_type = c2.citation_type ∧ c1.reference_ids = c2.reference_ids) →
      ∀ t L info,
        alGet (match_citations_to_references in_text references).fuzzy_matches t = some L →
        info ∈ L →
        ∃ M, alGet (match_citations_to_references in_text references).matches' t = some M ∧
          info.ref_id ∈ M) := by
  have hfold := mcr_fold_inv references in_text in_text ⟨[], []⟩
    (fun c hc => hc)
    (by intro t h; simp [alGet] at h)
    (by intro t L h; simp [alGet] at h)
    (by intro t M h; simp [alGet] at h)
  have hres : match_citations_to_references in_text references =
      List.foldl (mcr_step references) ⟨[], []⟩ in_text := rfl
  rw [hres]
  refine ⟨fun c hc => hfold.2.2.2.2 c hc, hfold.1, ?_, ?_⟩
  · intro t M id hM hid
    rcases hfold.2.2.1 t M hM with ⟨c, _, _, rfl⟩
    exact (citation_match_lists_inv references c).1 id hid
  · intro hcoh t L info hL hinfo
    rcases hfold.2.1 t L hL with ⟨c1, hc1, hts1, hL1, _⟩
    have hsome := hfold.1 t (by rw [hL]; rfl)
    rcases Option.isSome_iff_exists.mp hsome with ⟨M, hM⟩
    rcases hfold.2.2.1 t M hM with ⟨c2, hc2, hts2, hM2⟩
    have hagree := hcoh c1 hc1 c2 hc2 (by rw [hts1, hts2])
    have heq : citation_match_lists references c1 = citation_match_lists references c2 :=
      citation_match_lists_eq_of references c1 c2 (by rw [hts1, hts2]) hagree.1 hagree.2
    refine ⟨M, hM, ?_⟩
    rw [hM2, ← heq]
    have := (citation_match_lists_inv references c1).2 info (by rw [← hL1]; exact hinfo)
    exact this

/-- Witness for C10 at a concrete matching pair: the text of the (unique)
input citation is a key of `matches`. -/
theorem claim_C10_witness :
    (alGet (match_citations_to_references
        [⟨"(Smith, 2020)", 0, 13, CitationType.author_year, [], ""⟩]
        [⟨"smith_2020", "Smith, J. (2020). A study.", ["Smith, J."], none, some 2020, none,
          none, none, none, none, none⟩]).matches' smithKey).isSome := by
  exact (claim_C10
    [⟨"(Smith, 2020)", 0, 13, CitationType.author_year, [], ""⟩]
    [⟨"smith_2020", "Smith, J. (2020). A study.", ["Smith, J."], none, some 2020, none,
      none, none, none, none, none⟩]).1
    ⟨"(Smith, 2020)", 0, 13, CitationType.author_year, [], ""⟩ (by decide)

/-- Counterexample to claim C1 as stated: the same citation text occurs
twice and matches the single reference; `validate_citations` counts 2 (one
per occurrence, list comprehension over `in_text_citations` at
`validator.py:211`), while the number of distinct matched citation texts is
1. -/
theorem claim_C1_counterexample :
    (validate_citations
        ⟨fun _ _ _ => none, fun _ => [], fun _ => [], fun _ => [], fun _ _ => 0⟩
        [⟨"(Smith, 2020)", 11, 24, CitationType.author_year, [], ""⟩,
         ⟨"(Smith, 2020)", 40, 53, CitationType.author_year, [], ""⟩]
        [⟨"smith_2020", "Smith, J. (2020). A study. Journal, 1, 1-10.", ["Smith, J."], none,
          some 2020, none, none, none, none, none, none⟩]
        false false true false false).matched_citations = 2 ∧
    ((([⟨"(Smith, 2020)", 11, 24, CitationType.author_year, [], ""⟩,
        ⟨"(Smith, 2020)", 40, 53, CitationType.author_year, [], ""⟩] :
          List InTextCitation).map fun c => c.text).dedup.filter fun t =>
      (alGet (match_citations_to_references
        [⟨"(Smith, 2020)", 11, 24, CitationType.author_year, [], ""⟩,
         ⟨"(Smith, 2020)", 40, 53, CitationType.author_year, [], ""⟩]
        [⟨"smith_2020", "Smith, J. (2020). A study. Journal, 1, 1-10.", ["Smith, J."], none,
          some 2020, none, none, none, none, none, none⟩]).matches' t).getD [] ≠ []).length
      = 1 := by
  constructor
  · decide
  · decide

/-- Claim C1, amended: `matched_citations` equals the number of in-text
citation occurrences (not deduplicated by text) whose text is mapped to a
non-empty matched-reference list — two occurrences with the same matching
text contribute 2, not 1.  This holds for every collaborator bundle, flag
setting and input. -/
theorem claim_C1 (ext : ValidatorExt) (in_text : List InTextCitation)
    (references : List Citation) (w cc dd cr cj : Bool) :
    (validate_citations ext in_text references w cc dd cr cj).matched_citations =
      (in_text.filter fun c =>
        (alGet (match_citations_to_references in_text references).matches' c.text).getD []
          ≠ []).length := rfl

set_option maxHeartbeats 1600000 in
/-- Claim C5: for a reference list of exactly two references whose DOIs are
equal up to case, `detect_duplicates` emits exactly one duplicate issue
relating the pair, with confidence 1 and severity WARNING; it comes from the
exact-text strategy (match type `exact_duplicate`) when both raw texts are
non-empty and coincide up to case and surrounding whitespace, and otherwise
from the DOI strategy (match type `doi_match`); the pair, once processed by
a higher-priority strategy, is skipped by all lower-priority strategies. -/
theorem claim_C5 (fz : String → String → ℚ) (r1 r2 : Citation) (d1 d2 : String)
    (h1 : r1.doi = some d1) (h2 : r2.doi = some d2)
    (hd1 : d1 ≠ "") (hd2 : d2 ≠ "")
    (hci : pyLower d1.data = pyLower d2.data) :
    ∃ g : DuplicateGroup,
      detect_duplicate_groups fz [r1, r2] = [g] ∧
      detect_duplicates fz [r1, r2] = [duplicate_issue_of_group g] ∧
      g.reference_ids = [r1.id, r2.id] ∧
      g.confidence = 1 ∧
      (duplicate_issue_of_group g).severity = IssueSeverity.warning ∧
      (duplicate_issue_of_group g).related_references = [r1.id, r2.id] ∧
      g.match_type =
        (if r1.raw_text ≠ "" ∧ r2.raw_text ≠ "" ∧
            pyLower (pyStrip r1.raw_text.data) = pyLower (pyStrip r2.raw_text.data)
         then "exact_duplicate" else "doi_match") := by
  have henum : ([r1, r2] : List Citation).enum = [(0, r1), (1, r2)] := rfl
  have hkd : pyStrip (pyLower d1.data) = pyStrip (pyLower d2.data) := by rw [hci]
  have hmk : make_index_pair 0 1 = (0, 1) := rfl
  have hct : (([((0 : Nat), (1 : Nat))] : List (Nat × Nat))).contains (0, 1) = true := rfl
  have hip : indexPairs 2 = [(0, 1)] := rfl
  by_cases hK : r1.raw_text ≠ "" ∧ r2.raw_text ≠ "" ∧
      pyLower (pyStrip r1.raw_text.data) = pyLower (pyStrip r2.raw_text.data)
  · obtain ⟨hA, hB, hk⟩ := hK
    have hg : detect_duplicate_groups fz [r1, r2] =
        [({ reference_ids := [r1.id, r2.id], reference_indices := [1, 2], confidence := 1,
            match_type := "exact_duplicate", differences := [],
            raw_text_snippet := snippetOf [r1, r2] } : DuplicateGroup)] := by
      simp [detect_duplicate_groups, henum, h1, h2, hd1, hd2, hA, hB, hk, hkd,
        alAppend, refsAt, allPairs, hmk, hct, hip]
    exact ⟨_, hg, by simp [detect_duplicates, hg], rfl, rfl,
      by norm_num [duplicate_issue_of_group], rfl, by simp [hA, hB, hk]⟩
  · have hg : detect_duplicate_groups fz [r1, r2] =
        [({ reference_ids := [r1.id, r2.id], reference_indices := [1, 2], confidence := 1,
            match_type := "doi_match", differences := find_differences [r1, r2],
            raw_text_snippet := snippetOf [r1, r2] } : DuplicateGroup)] := by
      by_cases hA : r1.raw_text = "" <;> by_cases hB : r2.raw_text = ""
      · simp [detect_duplicate_groups, henum, h1, h2, hd1, hd2, hA, hB, hkd,
          alAppend, refsAt, allPairs, hmk, hct, hip]
      · simp [detect_duplicate_groups, henum, h1, h2, hd1, hd2, hA, hB, hkd,
          alAppend, refsAt, allPairs, hmk, hct, hip]
      · simp [detect_duplicate_groups, henum, h1, h2, hd1, hd2, hA, hB, hkd,
          alAppend, refsAt, allPairs, hmk, hct, hip]
      · have hk : ¬ pyLower (pyStrip r1.raw_text.data) = pyLower (pyStrip r2.raw_text.data) := by
          intro he
          exact hK ⟨hA, hB, he⟩
        simp [detect_duplicate_groups, henum, h1, h2, hd1, hd2, hA, hB, hk, hkd,
          alAppend, refsAt, allPairs, hmk, hct, hip]
    exact ⟨_, hg, by simp [detect_duplicates, hg], rfl, rfl,
      by norm_num [duplicate_issue_of_group], rfl, by simp [hK]⟩

/-- Witness for `claim_C5` at two concrete references whose DOIs differ only
in case: the resulting single group is a `doi_match`. -/
theorem claim_C5_witness :
    ∃ g : DuplicateGroup,
      detect_duplicate_groups (fun _ _ => 0) [c5ref1, c5ref2] = [g] ∧
      detect_duplicates (fun _ _ => 0) [c5ref1, c5ref2] = [duplicate_issue_of_group g] ∧
      g.reference_ids = [c5ref1.id, c5ref2.id] ∧
      g.confidence = 1 ∧
      (duplicate_issue_of_group g).severity = IssueSeverity.warning ∧
      (duplicate_issue_of_group g).related_references = [c5ref1.id, c5ref2.id] ∧
      g.match_type =
        (if c5ref1.raw_text ≠ "" ∧ c5ref2.raw_text ≠ "" ∧
            pyLower (pyStrip c5ref1.raw_text.data) = pyLower (pyStrip c5ref2.raw_text.data)
         then "exact_duplicate" else "doi_match") :=
  claim_C5 (fun _ _ => 0) c5ref1 c5ref2 "10.1234/ABC" "10.1234/abc" rfl rfl
    (by decide) (by decide) (by decide)

/-- Claim C9: every `Citation` produced by `parse_references` satisfies the
invariant that `doi_url` is set iff `doi` is set and then equals
`https://doi.org/` followed by the DOI (for any style-grammar bundle and any
entries), and `merge_duplicates` preserves this invariant. -/
theorem claim_C9 (G : RefGrammars) (entries : List String) (refs : List Citation)
    (merged : Citation) :
    (∀ c ∈ parse_references G entries, doiInv c) ∧
    ((∀ r ∈ refs, doiInv r) → merge_duplicates refs = some merged → doiInv merged) := by
  constructor
  · intro c hc
    rw [parse_references] at hc
    obtain ⟨p, -, rfl⟩ := List.mem_map.mp hc
    exact parse_single_reference_doiInv G p.2.data p.1
  · intro hall h
    exact merge_duplicates_doiInv hall h

/-- Witness for `claim_C9`: the invariant at a parsed concrete entry with a
DOI, and at the merge of two concrete references (whose result is the
DOI-carrying one). -/
theorem claim_C9_witness :
    doiInv (parse_single_reference c9grammars
      "Nasreddine Z (2005) MoCA. doi:10.1234/xyz".data 0) ∧
    doiInv c9refb :=
  ⟨(claim_C9 c9grammars ["Nasreddine Z (2005) MoCA. doi:10.1234/xyz"]
      [c9refa, c9refb] c9refb).1 _
      (by
        rw [show parse_references c9grammars ["Nasreddine Z (2005) MoCA. doi:10.1234/xyz"] =
            [parse_single_reference c9grammars
              "Nasreddine Z (2005) MoCA. doi:10.1234/xyz".data 0] from rfl]
        exact List.mem_singleton.mpr rfl),
   (claim_C9 c9grammars ["Nasreddine Z (2005) MoCA. doi:10.1234/xyz"]
      [c9refa, c9refb] c9refb).2
      (fun r hr => by
        rcases List.mem_cons.mp hr with rfl | hr2
        · exact Or.inl ⟨rfl, rfl⟩
        · rcases List.mem_cons.mp hr2 with rfl | hr3
          · exact Or.inr ⟨"10.1234/xyz", rfl, rfl⟩
          · exact absurd hr3 (List.not_mem_nil r))
      rfl⟩

end CiteFix
